import Mathlib

/-!
Shallow embedding of the timesheet/absence reconciliation core of the CRA
repository (Flask + SQLAlchemy).  The embedding follows the route handlers in
`app/routes/absence_requests.py` and `app/routes/timesheet.py` and the ORM
models in `app/models/`.

Modelling conventions, fixed once for the whole file:

* SQLAlchemy rows become Lean structures; the ambient session becomes an
  explicit `DBState` record of row lists kept in insertion order (primary-key
  ids are allocated from monotone counters, so list order coincides with the
  `order_by(id)` order the routes rely on).
* Each route handler becomes a pure function `... → DBState → Except ApiError
  DBState`.  An error return models the handler answering a 4xx/5xx without
  committing: SQLAlchemy discards the uncommitted unit of work, so the state
  is unchanged.  `jsonify` payload details are dropped; error *data* the spec
  talks about (conflicting dates, remaining allowance) is carried on the
  `ApiError` constructors.
* Float amounts (`number_of_hours` in the hour-based revision of the code,
  `time_fraction` in the fraction-based one — the spec's design notes direct
  both to be read as the same amount concept) are embedded as exact
  fixed-point integers in units of 1/10000 — the code's own float tolerance
  quantum: a source value `v` appears as `10000 * v`.  Every constant the
  code compares amounts against (0.5, 1.0, 8.0001, 24, 25, 200, the 0.0001
  tolerance) is exactly representable on this grid, and every comparison the
  code performs is exact at the values involved, so the embedding is faithful
  for all payloads on the grid.  `halfDay = 5000` and `fullDay = 10000` name
  the two discrete day fractions.
* The snapshot's `app/models/enums.py` omits the `SAVED` member of
  `AbsenceRequestStatus` and the whole `TimesheetStatus` enum, although the
  route code references both (`AbsenceRequestStatus.SAVED`,
  `TimesheetStatus('saved')`, status strings 'pending'/'validated').  They are
  modelled from the spec (§3: day state machine with the `saved` draft state;
  MonthlyTimesheet status ∈ {saved, pending, validated, refused}).
* `datetime.now().year` is passed explicitly as a `currentYear` argument.
* The `unique_daily_timesheet_entry` constraint of one revision (one entry per
  consultant per date) is dropped, as the spec records the operative revision
  relaxing it to several category slices per date; the reconciliation and
  multi-activity creation code requires the relaxed schema.
* Free-text columns (commentary, justification, descriptions, hr comments)
  and the astreinte sub-fields are not read by any rule the claims mention
  and are elided from the row structures.
-/

namespace CRA

/-- Calendar date, as Python `datetime.date`: always a valid date in use. -/
structure Date where
  year : Nat
  month : Nat
  day : Nat
deriving DecidableEq, Repr

/-- Gregorian leap-year rule (Python `calendar`). -/
def isLeapYear (y : Nat) : Bool :=
  y % 4 == 0 && (y % 100 != 0 || y % 400 == 0)

/-- `calendar.monthrange(y, m)[1]`: number of days of month `m` of year `y`. -/
def daysInMonth (y m : Nat) : Nat :=
  if m = 2 then (if isLeapYear y then 29 else 28)
  else if m = 4 ∨ m = 6 ∨ m = 9 ∨ m = 11 then 30
  else 31

/-- Lexicographic `≤` on dates (Python date comparison). -/
def dateLeb (a b : Date) : Bool :=
  a.year < b.year ||
    (a.year == b.year &&
      (a.month < b.month || (a.month == b.month && a.day ≤ b.day)))

/-- `first_day ≤ d ≤ last_day` for the month `(y, m)`, exactly as the routes
compute the month window with `date(y, m, 1)` and `monthrange`. -/
def inMonth (d : Date) (y m : Nat) : Bool :=
  dateLeb ⟨y, m, 1⟩ d && dateLeb d ⟨y, m, daysInMonth y m⟩

/-- `app/models/enums.py`: `ActivityType`. -/
inductive ActivityType where
  | project
  | internal
  | absence
deriving DecidableEq, Repr

/-- `app/models/enums.py`: `InternalActivityType`. -/
inductive InternalActivityType where
  | office
  | inter_contract
  | internal_project
  | training
deriving DecidableEq, Repr

/-- `app/models/enums.py`: `AbsenceRequestType`. -/
inductive AbsenceRequestType where
  | cp
  | rtt
  | congesSansSolde
  | maladie
  | exceptionnelle
  | paternite
  | maternite
deriving DecidableEq, Repr

/-- `app/models/enums.py`: `AbsenceRequestStatus`, together with the `SAVED`
member the route code references (see the file header). -/
inductive AbsenceRequestStatus where
  | pending
  | accepted
  | refused
  | partiallyAccepted
  | saved
deriving DecidableEq, Repr

/-- Modelled from the spec: `TimesheetStatus` is referenced throughout the
routes and models but its enum definition is absent from the snapshot; the
spec fixes its values as {saved, pending, validated, refused}. -/
inductive TimesheetStatus where
  | saved
  | pending
  | validated
  | refused
deriving DecidableEq, Repr

/-- `app/models/absence_request.py`: `AbsenceRequest` row. -/
structure AbsenceRequest where
  id : Nat
  consultant_id : Nat
  absence_type : AbsenceRequestType
  status : AbsenceRequestStatus
  assigned_project_id : Option Nat
  reviewed_by : Option String
deriving DecidableEq, Repr

/-- `app/models/absence_request.py`: `AbsenceRequestDay` row.  `amount` is the
day's `number_of_hours` / `time_fraction` column (see the file header). -/
structure AbsenceRequestDay where
  id : Nat
  absence_request_id : Nat
  absence_date : Date
  amount : ℤ
  status : AbsenceRequestStatus
deriving DecidableEq, Repr

/-- `app/models/timesheet_entry.py`: `MonthlyTimesheet` row. -/
structure MonthlyTimesheet where
  id : Nat
  consultant_id : Nat
  month : Nat
  year : Nat
  status : TimesheetStatus
deriving DecidableEq, Repr

/-- `app/models/timesheet_entry.py`: `DailyTimesheetEntry` row.  `amount` is
the `number_of_hours` / `time_fraction` column. -/
structure DailyTimesheetEntry where
  id : Nat
  consultant_id : Nat
  work_date : Date
  activity_type : ActivityType
  amount : ℤ
  status : TimesheetStatus
  mission_id : Option Nat
  internal_activity_type : Option InternalActivityType
  absence_type : Option AbsenceRequestType
  absence_request_id : Option Nat
  monthly_timesheet_id : Option Nat
deriving DecidableEq, Repr

/-- `app/models/project_assignment.py`: the fields the absence/timesheet
routes read (mission lookup and ownership). -/
structure ProjectAssignment where
  id : Nat
  consultant_id : Nat
deriving DecidableEq, Repr

/-- The persistent store: one list per table, in insertion (= id) order, plus
the id allocators. -/
structure DBState where
  consultants : List Nat
  assignments : List ProjectAssignment
  requests : List AbsenceRequest
  days : List AbsenceRequestDay
  timesheets : List MonthlyTimesheet
  entries : List DailyTimesheetEntry
  nextRequestId : Nat
  nextDayId : Nat
  nextTimesheetId : Nat
  nextEntryId : Nat
deriving DecidableEq, Repr

/-- Error answers of the route handlers (4xx/404/500 returns).  Constructors
carry the data the spec's claims mention. -/
inductive ApiError where
  | notFound
  | emptyDays
  | hoursTooLarge
  | badTimeFraction
  | dateConflict (dates : List Date)
  | annualLimitExceeded (remaining requested : ℤ)
  | missionRequired
  | missionNotOwned
  | stateNotEditable
  | reviewerRequired
  | validatedMonthLock (month year : Nat)
  | invalidStatus
  | dayNotFound (day_id : Nat)
  | statusNotAllowed
  | stateNotDeletable
  | duplicatePeriod
  | invalidMonth
  | invalidYear
  | activitiesEmpty (d : Date)
  | invalidHours (d : Date)
  | dayTotalExceeded (d : Date)
  | internalTypeRequired (d : Date)
  | absenceTypeRequired (d : Date)
  | absenceRequestIdRequired (d : Date)
  | absenceRequestNotFound (d : Date)
  | absenceRequestNotOwned (d : Date)
  | missionRequiredOn (d : Date)
  | missionNotFoundOn (d : Date)
  | missionNotOwnedOn (d : Date)
  | duplicateDecision (day_id : Nat)
  | missingDecisions
  | persistenceFailure
deriving DecidableEq, Repr

/-- Results of the embedded operations are comparable values. -/
instance {ε α : Type} [DecidableEq ε] [DecidableEq α] :
    DecidableEq (Except ε α) := fun x y =>
  match x, y with
  | .ok a, .ok b =>
    match decEq a b with
    | isTrue h => isTrue (h ▸ rfl)
    | isFalse h => isFalse (fun hh => h (Except.ok.inj hh))
  | .error a, .error b =>
    match decEq a b with
    | isTrue h => isTrue (h ▸ rfl)
    | isFalse h => isFalse (fun hh => h (Except.error.inj hh))
  | .ok _, .error _ => isFalse (fun hh => Except.noConfusion hh)
  | .error _, .ok _ => isFalse (fun hh => Except.noConfusion hh)

/-- The two discrete day fractions, on the 1/10000 fixed-point grid. -/
def halfDay : ℤ := 5000

def fullDay : ℤ := 10000

/-- Sum of a list of amounts. -/
def amtSum (l : List ℤ) : ℤ := l.foldr (· + ·) 0

/-- `AbsenceRequest.query.get(rid)`. -/
def findRequest (s : DBState) (rid : Nat) : Option AbsenceRequest :=
  s.requests.find? (fun r => decide (r.id = rid))

/-- `absence_request.absence_days` (rows of the request, in insertion order). -/
def requestDays (s : DBState) (rid : Nat) : List AbsenceRequestDay :=
  s.days.filter (fun dy => decide (dy.absence_request_id = rid))

/-- The day row's consultant, through the `AbsenceRequestDay ⋈ AbsenceRequest`
join the conflict and annual-limit queries perform. -/
def dayRequest (s : DBState) (dy : AbsenceRequestDay) : Option AbsenceRequest :=
  findRequest s dy.absence_request_id

/-- `create_absence_request` conflict query (absence_requests.py:56-60): a day
of the consultant on `date` whose status is PENDING, ACCEPTED or SAVED. -/
def conflictExistsCreate (s : DBState) (cid : Nat) (date : Date) : Bool :=
  s.days.any fun dy =>
    (match dayRequest s dy with
     | some r => decide (r.consultant_id = cid)
     | none => false)
    && decide (dy.absence_date = date)
    && decide (dy.status = .pending ∨ dy.status = .accepted ∨ dy.status = .saved)

/-- The dates of the payload that conflict, in payload order
(absence_requests.py:54-63). -/
def conflictDatesCreate (s : DBState) (cid : Nat) (ds : List (Date × ℤ)) :
    List Date :=
  (ds.filter (fun p => conflictExistsCreate s cid p.1)).map (·.1)

/-- `update_absence_request` conflict query (absence_requests.py:506-511):
status PENDING or ACCEPTED only, and the edited request's own rows excluded. -/
def conflictExistsUpdate (s : DBState) (cid rid : Nat) (date : Date) : Bool :=
  s.days.any fun dy =>
    (match dayRequest s dy with
     | some r => decide (r.consultant_id = cid)
     | none => false)
    && decide (dy.absence_date = date)
    && decide (dy.status = .pending ∨ dy.status = .accepted)
    && decide (dy.absence_request_id ≠ rid)

/-- Conflicting dates of an update payload (absence_requests.py:504-513). -/
def conflictDatesUpdate (s : DBState) (cid rid : Nat) (ds : List (Date × ℤ)) :
    List Date :=
  (ds.filter (fun p => conflictExistsUpdate s cid rid p.1)).map (·.1)

/-- Annual-limit sum of `create_absence_request` (absence_requests.py:75-80):
amounts of the consultant's days in `year` whose request type is not Congés
Sans Solde and whose day status is ACCEPTED, PENDING or SAVED. -/
def existingHoursCreate (s : DBState) (cid year : Nat) : ℤ :=
  amtSum <| (s.days.filter fun dy =>
    (match dayRequest s dy with
     | some r =>
         decide (r.consultant_id = cid) &&
           decide (r.absence_type ≠ .congesSansSolde)
     | none => false)
    && decide (dy.status = .accepted ∨ dy.status = .pending ∨ dy.status = .saved)
    && decide (dy.absence_date.year = year)).map (·.amount)

/-- Annual-limit sum of `update_absence_request` (absence_requests.py:521-527):
like the create sum, but SAVED days are not counted and the edited request's
own rows are excluded. -/
def existingDaysUpdate (s : DBState) (cid rid year : Nat) : ℤ :=
  amtSum <| (s.days.filter fun dy =>
    (match dayRequest s dy with
     | some r =>
         decide (r.consultant_id = cid) &&
           decide (r.absence_type ≠ .congesSansSolde)
     | none => false)
    && decide (dy.status = .accepted ∨ dy.status = .pending)
    && decide (dy.absence_date.year = year)
    && decide (dy.absence_request_id ≠ rid)).map (·.amount)

/-- New `AbsenceRequestDay` rows for a payload, with ids allocated from
`startId` in payload order. -/
def mkDays (rid : Nat) (st : AbsenceRequestStatus) :
    Nat → List (Date × ℤ) → List AbsenceRequestDay
  | _, [] => []
  | startId, d :: rest =>
      ⟨startId, rid, d.1, d.2, st⟩ :: mkDays rid st (startId + 1) rest

/-- Payload of `POST /api/absence-requests`. -/
structure CreatePayload where
  consultant_id : Nat
  absence_type : AbsenceRequestType
  activity_type : ActivityType
  mission_id : Option Nat
  status : Option AbsenceRequestStatus
  days : List (Date × ℤ)
deriving DecidableEq, Repr

/-- The commit of `create_absence_request` (absence_requests.py:109-153):
insert the request row and one day row per payload day, all in one
transaction.  The duplicate-date guard models the `unique_absence_day`
storage constraint: a payload repeating a date makes the commit fail, which
the route surfaces as a 500 after rollback. -/
def createAbsenceInsert (p : CreatePayload) (s : DBState)
    (assigned : Option Nat) : Except ApiError DBState :=
  if ¬ (p.days.map (·.1)).Nodup then .error .persistenceFailure
  else
    let rid := s.nextRequestId
    let st := p.status.getD .saved
    .ok { s with
      requests := s.requests ++
        [⟨rid, p.consultant_id, p.absence_type, st, assigned, none⟩],
      days := s.days ++ mkDays rid st s.nextDayId p.days,
      nextRequestId := rid + 1,
      nextDayId := s.nextDayId + p.days.length }

/-- The mission-link validation of `create_absence_request`
(absence_requests.py:89-107), followed by the commit. -/
def createMissionStage (p : CreatePayload) (s : DBState) :
    Except ApiError DBState :=
  if p.activity_type = .project then
    match p.mission_id with
    | none => .error .missionRequired
    | some mid =>
      match s.assignments.find? (fun a => decide (a.id = mid)) with
      | none => .error .notFound
      | some a =>
        if a.consultant_id ≠ p.consultant_id then .error .missionNotOwned
        else createAbsenceInsert p s (some a.id)
  else createAbsenceInsert p s none

/-- `create_absence_request` (absence_requests.py:10-153).  Day amounts are
the payload's `number_of_hours` values. -/
def createAbsenceRequest (p : CreatePayload) (currentYear : Nat)
    (s : DBState) : Except ApiError DBState :=
  if ¬ p.consultant_id ∈ s.consultants then .error .notFound
  else if p.days = [] then .error .emptyDays
  else if p.days.any (fun d => decide (d.2 > 80001)) then  -- 8.0001 hours
    .error .hoursTooLarge
  else
    let conflicts := conflictDatesCreate s p.consultant_id p.days
    if conflicts ≠ [] then .error (.dateConflict conflicts)
    else
      let requested := amtSum (p.days.map (·.2))
      let existing := existingHoursCreate s p.consultant_id currentYear
      if p.absence_type ≠ .congesSansSolde ∧
          existing + requested > 25 * 8 * 10000 then  -- 200 hours
        .error
          (.annualLimitExceeded (max 0 (25 * 8 * 10000 - existing)) requested)
      else createMissionStage p s

/-- One activity object of a `work_dates` entry of `POST /api/timesheets`. -/
structure ActivityPayload where
  activity_type : ActivityType
  number_of_hours : ℤ
  mission_id : Option Nat
  internal_activity_type : Option InternalActivityType
  absence_type : Option AbsenceRequestType
  absence_request_id : Option Nat
deriving DecidableEq, Repr

/-- Payload of `POST /api/timesheets`.  `work_dates` is a JSON object, so its
keys (the dates) are distinct. -/
structure TimesheetPayload where
  consultant_id : Nat
  month : Nat
  year : Nat
  status : TimesheetStatus
  work_dates : List (Date × List ActivityPayload)
deriving DecidableEq, Repr

/-- Category-specific field validation of one activity
(timesheet.py:149-219); astreinte sub-fields are elided (never read by any
rule under verification, and defaulted payloads never reach them). -/
def categoryCheck (s : DBState) (cid : Nat) (d : Date) (a : ActivityPayload) :
    Option ApiError :=
  match a.activity_type with
  | .project =>
    match a.mission_id with
    | none => some (.missionRequiredOn d)
    | some mid =>
      match s.assignments.find? (fun asg => decide (asg.id = mid)) with
      | none => some (.missionNotFoundOn d)
      | some asg =>
          if asg.consultant_id ≠ cid then some (.missionNotOwnedOn d) else none
  | .internal =>
      if a.internal_activity_type = none then some (.internalTypeRequired d)
      else none
  | .absence =>
    if a.absence_type = none then some (.absenceTypeRequired d)
    else
      match a.absence_request_id with
      | none => some (.absenceRequestIdRequired d)
      | some arid =>
        match findRequest s arid with
        | none => some (.absenceRequestNotFound d)
        | some r =>
          if r.consultant_id ≠ cid then some (.absenceRequestNotOwned d)
          else
            match a.mission_id with
            | none => none
            | some mid =>
              match s.assignments.find? (fun asg => decide (asg.id = mid)) with
              | none => some (.missionNotFoundOn d)
              | some asg =>
                  if asg.consultant_id ≠ cid then some (.missionNotOwnedOn d)
                  else none

/-- The per-date activity loop of `create_timesheet` (timesheet.py:121-238):
validates each activity and accumulates the day's hours, rejecting as soon as
the running total exceeds 24. -/
def checkActivities (s : DBState) (cid : Nat) (d : Date) (total : ℤ) :
    List ActivityPayload → Except ApiError ℤ
  | [] => .ok total
  | a :: rest =>
    if a.number_of_hours ≤ 0 ∨ a.number_of_hours > 24 * 10000 then  -- 24 hours
      .error (.invalidHours d)
    else
      let t := total + a.number_of_hours
      if t > 24 * 10000 then .error (.dayTotalExceeded d)  -- 24 hours
      else
        match categoryCheck s cid d a with
        | some e => .error e
        | none => checkActivities s cid d t rest

/-- The date loop of `create_timesheet` (timesheet.py:111-238). -/
def checkWorkDates (s : DBState) (cid : Nat) :
    List (Date × List ActivityPayload) → Option ApiError
  | [] => none
  | (d, acts) :: rest =>
    if acts = [] then some (.activitiesEmpty d)
    else
      match checkActivities s cid d 0 acts with
      | .error e => some e
      | .ok _ => checkWorkDates s cid rest

/-- `(date, activity)` pairs of a payload, flattened in iteration order. -/
def flattenWorkDates :
    List (Date × List ActivityPayload) → List (Date × ActivityPayload)
  | [] => []
  | (d, acts) :: rest => acts.map (fun a => (d, a)) ++ flattenWorkDates rest

/-- `DailyTimesheetEntry` rows created by `create_timesheet`
(timesheet.py:222-238), ids allocated from `startId`. -/
def mkTsEntries (cid tsId : Nat) (st : TimesheetStatus) :
    Nat → List (Date × ActivityPayload) → List DailyTimesheetEntry
  | _, [] => []
  | startId, (d, a) :: rest =>
      ⟨startId, cid, d, a.activity_type, a.number_of_hours, st, a.mission_id,
        a.internal_activity_type, a.absence_type, a.absence_request_id,
        some tsId⟩ :: mkTsEntries cid tsId st (startId + 1) rest

/-- `create_timesheet` (timesheet.py:62-245). -/
def createTimesheet (p : TimesheetPayload) (s : DBState) :
    Except ApiError DBState :=
  if ¬ (1 ≤ p.month ∧ p.month ≤ 12) then .error .invalidMonth
  else if p.year < 2000 ∨ p.year > 2100 then .error .invalidYear
  else if s.timesheets.any (fun t =>
      decide (t.consultant_id = p.consultant_id ∧ t.month = p.month ∧
        t.year = p.year)) then
    .error .duplicatePeriod
  else
    match checkWorkDates s p.consultant_id p.work_dates with
    | some e => .error e
    | none =>
      let tsId := s.nextTimesheetId
      let flat := flattenWorkDates p.work_dates
      .ok { s with
        timesheets := s.timesheets ++
          [⟨tsId, p.consultant_id, p.month, p.year, p.status⟩],
        entries := s.entries ++
          mkTsEntries p.consultant_id tsId p.status s.nextEntryId flat,
        nextTimesheetId := tsId + 1,
        nextEntryId := s.nextEntryId + flat.length }

/-- The absence entry both reconciliation sites construct
(absence_requests.py:594-604, 640-650, 654-664 and the review analogues):
status `pending`, linked to the request, not attached to a monthly
timesheet row. -/
def mkAbsenceEntry (id cid : Nat) (d : Date) (amt : ℤ)
    (atype : AbsenceRequestType) (rid : Nat) : DailyTimesheetEntry :=
  ⟨id, cid, d, .absence, amt, .pending, none, none, some atype, some rid, none⟩

/-- Apply a reconciliation plan to the session: delete the rows whose ids are
in `deleteIds`, and shrink the row `firstHalf` (the first entry of the date)
to a half day. -/
def applyPlan (deleteIds : List Nat) (firstHalf : Option Nat)
    (es : List DailyTimesheetEntry) : List DailyTimesheetEntry :=
  (es.filter (fun e => decide (¬ e.id ∈ deleteIds))).map fun e =>
    if firstHalf = some e.id then { e with amount := halfDay } else e

/-- The half-day case of reconciliation (absence_requests.py:606-637), as a
plan over the date's non-absence entries `des` (in id order): which rows are
deleted and whether the first row is shrunk to 0.5. -/
def halfDayPlan (des : List DailyTimesheetEntry) : List Nat × Option Nat :=
  match des with
  | [] => ([], none)
  | first :: rest =>
    let total := amtSum (des.map (·.amount))
    if total = fullDay then
      if rest = [] then ([], some first.id)
      else
        match des.getLast? with
        | none => ([], none)
        | some lastE =>
          let remaining := amtSum (des.dropLast.map (·.amount))
          if remaining > halfDay then (rest.map (·.id), some first.id)
          else ([lastE.id], none)
    else if total = halfDay then ([], none)
    else (rest.map (·.id), some first.id)

/-- Reconciliation of one absence day against the consultant's timesheet
entries (absence_requests.py:564-664 for update, 782-869 for review; the two
sites differ only in the month guard, switched by `requireNonValidated`).
Returns the new entry table, the next fresh id, and whether the month guard
passed (review adds the month to its affected set exactly then). -/
def reconcileDay (cid rid : Nat) (atype : AbsenceRequestType)
    (requireNonValidated : Bool) (d : Date) (frac : ℤ)
    (es : List DailyTimesheetEntry) (fresh : Nat) :
    List DailyTimesheetEntry × Nat × Bool :=
  let submitted := es.any fun e =>
    decide (e.consultant_id = cid) && inMonth e.work_date d.year d.month &&
      (!requireNonValidated || decide (e.status ≠ .validated))
  if ¬ submitted then (es, fresh, false)
  else
    let des := es.filter fun e =>
      decide (e.consultant_id = cid ∧ e.work_date = d ∧
        e.activity_type ≠ .absence)
    if des = [] then
      (es ++ [mkAbsenceEntry fresh cid d frac atype rid], fresh + 1, true)
    else if frac = fullDay then
      (applyPlan (des.map (·.id)) none es ++
        [mkAbsenceEntry fresh cid d fullDay atype rid], fresh + 1, true)
    else if frac = halfDay then
      let plan := halfDayPlan des
      (applyPlan plan.1 plan.2 es ++
        [mkAbsenceEntry fresh cid d halfDay atype rid], fresh + 1, true)
    else
      -- a day amount other than 1.0 or 0.5 matches no reconciliation branch
      (es, fresh, true)

/-- The per-day reconciliation loop of `update_absence_request`
(absence_requests.py:558-664); the affected-months bookkeeping of that route
is commented out in the source, so nothing is collected. -/
def reconcileFoldUpdate (cid rid : Nat) (atype : AbsenceRequestType) :
    List (Date × ℤ) → List DailyTimesheetEntry → Nat →
      List DailyTimesheetEntry × Nat
  | [], es, fresh => (es, fresh)
  | (d, frac) :: rest, es, fresh =>
    let r := reconcileDay cid rid atype true d frac es fresh
    reconcileFoldUpdate cid rid atype rest r.1 r.2.1

/-- The per-day reconciliation loop of `review_absence_request`
(absence_requests.py:777-869), collecting the affected months. -/
def reconcileFoldReview (cid rid : Nat) (atype : AbsenceRequestType) :
    List AbsenceRequestDay → List DailyTimesheetEntry → Nat →
      List (Nat × Nat) → List DailyTimesheetEntry × Nat × List (Nat × Nat)
  | [], es, fresh, months => (es, fresh, months)
  | dy :: rest, es, fresh, months =>
    let d := dy.absence_date
    let r := reconcileDay cid rid atype false d dy.amount es fresh
    let months' :=
      if r.2.2 ∧ ¬ (d.year, d.month) ∈ months then months ++ [(d.year, d.month)]
      else months
    reconcileFoldReview cid rid atype rest r.1 r.2.1 months'

/-- One record of `analyze_affected_months` (absence_requests.py:384-435). -/
structure MonthInfo where
  year : Nat
  month : Nat
  tsStatus : Option TimesheetStatus
  modified : Bool
deriving DecidableEq, Repr

/-- Insert a month into a sorted duplicate-free list (Python
`sorted(affected_months)` over a set). -/
def insertMonth (p : Nat × Nat) : List (Nat × Nat) → List (Nat × Nat)
  | [] => [p]
  | q :: rest =>
    if p = q then q :: rest
    else if p.1 < q.1 ∨ (p.1 = q.1 ∧ p.2 < q.2) then p :: q :: rest
    else q :: insertMonth p rest

/-- Sorted set of months. -/
def sortedMonths (l : List (Nat × Nat)) : List (Nat × Nat) :=
  l.foldl (fun acc p => insertMonth p acc) []

/-- Python set equality of `{(date, amount)}` sets. -/
def listSetEq (a b : List (Date × ℤ)) : Bool :=
  a.all (fun x => b.any (fun y => decide (y = x))) &&
    b.all (fun x => a.any (fun y => decide (y = x)))

/-- `analyze_affected_months` (absence_requests.py:384-435): for every month
touched by the old or the new day list, the status of the consultant's first
timesheet entry in that month (`''` ≙ `none` when the month has no entries)
and whether the month's `(date, amount)` day set changed. -/
def analyzeAffectedMonths (s : DBState) (cid : Nat)
    (oldDays newDays : List (Date × ℤ)) : List MonthInfo :=
  let months :=
    sortedMonths ((oldDays ++ newDays).map (fun d => (d.1.year, d.1.month)))
  months.map fun p =>
    let entriesM := s.entries.filter fun e =>
      decide (e.consultant_id = cid) && inMonth e.work_date p.1 p.2
    let oldM := oldDays.filter (fun d => decide (d.1.year = p.1 ∧ d.1.month = p.2))
    let newM := newDays.filter (fun d => decide (d.1.year = p.1 ∧ d.1.month = p.2))
    ⟨p.1, p.2, entriesM.head?.map (·.status), ! listSetEq oldM newM⟩

/-- Payload of `PUT /api/absence-requests/<id>`. -/
structure UpdatePayload where
  absence_type : Option AbsenceRequestType
  status : Option AbsenceRequestStatus
  reviewed_by : Option String
  days : Option (List (Date × ℤ))
deriving DecidableEq, Repr

/-- The committed effect of `update_absence_request` when a replacement day
list is supplied (absence_requests.py:532-692): replace the request's day
rows (fresh rows default to status `pending`), delete the request's
non-validated timesheet entries, reconcile each new day, set the request's
type and final status. -/
def applyUpdateDays (s : DBState) (req : AbsenceRequest)
    (newType : AbsenceRequestType) (ns : AbsenceRequestStatus)
    (ds : List (Date × ℤ)) : DBState :=
  let rid := req.id
  let keptEntries := s.entries.filter fun e =>
    decide (¬ (e.absence_request_id = some rid ∧ e.status ≠ .validated))
  let r2 := reconcileFoldUpdate req.consultant_id rid newType ds keptEntries
    s.nextEntryId
  { s with
    requests := s.requests.map fun r =>
      if r.id = rid then { r with absence_type := newType, status := ns } else r,
    days := s.days.filter (fun dy => decide (dy.absence_request_id ≠ rid)) ++
      mkDays rid .pending s.nextDayId ds,
    entries := r2.1,
    nextDayId := s.nextDayId + ds.length,
    nextEntryId := r2.2 }

/-- The tail of `update_absence_request` (absence_requests.py:682-692): the
final-status validation and the commit; as in create, the duplicate-date
guard models the `unique_absence_day` constraint at commit. -/
def updateApplyStage (s : DBState) (req : AbsenceRequest)
    (newType : AbsenceRequestType) (ns : AbsenceRequestStatus)
    (ds : List (Date × ℤ)) : Except ApiError DBState :=
  if ¬ (ns = .pending ∨ ns = .refused ∨ ns = .accepted) then
    .error .invalidStatus
  else if ¬ (ds.map (·.1)).Nodup then .error .persistenceFailure
  else .ok (applyUpdateDays s req newType ns ds)

/-- The conflict and annual-limit checks of `update_absence_request`
(absence_requests.py:503-530), followed by the commit stage.  The edited
request's id enters both queries through `req.id`. -/
def updateConflictStage (s : DBState) (req : AbsenceRequest)
    (newType : AbsenceRequestType) (ns : AbsenceRequestStatus)
    (ds : List (Date × ℤ)) (currentYear : Nat) : Except ApiError DBState :=
  let conflicts := conflictDatesUpdate s req.consultant_id req.id ds
  if conflicts ≠ [] then .error (.dateConflict conflicts)
  else
    let requested := amtSum (ds.map (·.2))
    let existing := existingDaysUpdate s req.consultant_id req.id currentYear
    if newType ≠ .congesSansSolde ∧
        existing + requested > 25 * 10000 then  -- 25 days
      .error (.annualLimitExceeded (max 0 (25 * 10000 - existing)) requested)
    else updateApplyStage s req newType ns ds

/-- `update_absence_request` (absence_requests.py:437-709). -/
def updateAbsenceRequest (rid : Nat) (p : UpdatePayload) (currentYear : Nat)
    (s : DBState) : Except ApiError DBState :=
  match findRequest s rid with
  | none => .error .notFound
  | some req =>
    if ¬ (req.status = .pending ∨ req.status = .refused ∨
        req.status = .accepted) then
      .error .stateNotEditable
    else if req.status = .accepted ∧ p.reviewed_by ≠ some "hr@company.com" then
      .error .reviewerRequired
    else
      let newType := p.absence_type.getD req.absence_type
      let ns := p.status.getD .pending
      match p.days with
      | none =>
        if ¬ (ns = .pending ∨ ns = .refused ∨ ns = .accepted) then
          .error .invalidStatus
        else
          .ok { s with requests := s.requests.map fun r =>
            if r.id = rid then { r with absence_type := newType, status := ns }
            else r }
      | some ds =>
        if ds = [] then .error .emptyDays
        else if ¬ ds.all (fun d => decide (d.2 = halfDay ∨ d.2 = fullDay)) then
          .error .badTimeFraction
        else
          let oldDays := (requestDays s rid).map fun dy =>
            (dy.absence_date, dy.amount)
          let affected := analyzeAffectedMonths s req.consultant_id oldDays ds
          match affected.find? (fun m =>
              decide (req.status = .refused) &&
                decide (m.tsStatus = some .validated) && m.modified) with
          | some m => .error (.validatedMonthLock m.month m.year)
          | none => updateConflictStage s req newType ns ds currentYear

/-- The decision loop of `review_absence_request`
(absence_requests.py:736-761): look each day up in this request, require an
accepted/refused decision, set the day's status, count.  A failure mid-loop
is answered before the commit, so earlier mutations are rolled back. -/
def applyDecisions (rid : Nat) :
    List (Nat × AbsenceRequestStatus) → List AbsenceRequestDay → Nat → Nat →
      Except ApiError (List AbsenceRequestDay × Nat × Nat)
  | [], days, a, r => .ok (days, a, r)
  | (did, st) :: rest, days, a, r =>
    if days.any (fun dy =>
        decide (dy.id = did ∧ dy.absence_request_id = rid)) then
      if st = .accepted ∨ st = .refused then
        applyDecisions rid rest
          (days.map fun dy =>
            if dy.id = did ∧ dy.absence_request_id = rid then
              { dy with status := st }
            else dy)
          (if st = .accepted then a + 1 else a)
          (if st = .accepted then r else r + 1)
      else .error .statusNotAllowed
    else .error (.dayNotFound did)

/-- The aggregate status `review_absence_request` derives from its counters
(absence_requests.py:763-770). -/
def deriveStatus (aCount rCount total : Nat) : AbsenceRequestStatus :=
  if aCount = total then .accepted
  else if rCount = total then .refused
  else .partiallyAccepted

/-- `review_absence_request` (absence_requests.py:711-908). -/
def reviewAbsenceRequest (rid : Nat) (reviewed_by : String)
    (decisions : List (Nat × AbsenceRequestStatus)) (s : DBState) :
    Except ApiError DBState :=
  match findRequest s rid with
  | none => .error .notFound
  | some req =>
    match applyDecisions rid decisions s.days 0 0 with
    | .error e => .error e
    | .ok (days', aCount, rCount) =>
      let total :=
        (days'.filter (fun dy => decide (dy.absence_request_id = rid))).length
      let newStatus := deriveStatus aCount rCount total
      let withReq : DBState → DBState := fun st =>
        { st with requests := st.requests.map fun r =>
            if r.id = rid then
              { r with status := newStatus, reviewed_by := some reviewed_by }
            else r }
      if req.status = .refused ∧
          (newStatus = .accepted ∨ newStatus = .partiallyAccepted) then
        -- refused → accepting: re-materialize entries for the accepted days,
        -- then flip every entry of each affected month to pending
        let accDays := days'.filter fun dy =>
          decide (dy.absence_request_id = rid ∧ dy.status = .accepted)
        let r3 := reconcileFoldReview req.consultant_id rid req.absence_type
          accDays s.entries s.nextEntryId []
        let entries' := r3.1.map fun e =>
          if decide (e.consultant_id = req.consultant_id) &&
              r3.2.2.any (fun q => inMonth e.work_date q.1 q.2) then
            { e with status := .pending }
          else e
        .ok (withReq
          { s with days := days', entries := entries', nextEntryId := r3.2.1 })
      else if rCount > 0 then
        -- some day refused: drop every entry materialized from this request
        .ok (withReq { s with
          days := days',
          entries := s.entries.filter fun e =>
            decide (e.absence_request_id ≠ some rid) })
      else
        .ok (withReq { s with days := days' })

/-- `delete_absence_request` (absence_requests.py:910-955).  The cascade of
the `AbsenceRequest` relationships removes the day rows and the timesheet
entries created from the request; remaining entries of the consultant in the
affected months are then reset to pending. -/
def deleteAbsenceRequest (rid : Nat) (s : DBState) : Except ApiError DBState :=
  match findRequest s rid with
  | none => .error .notFound
  | some req =>
    if ¬ (req.status = .pending ∨ req.status = .refused) then
      .error .stateNotDeletable
    else
      let affected := sortedMonths ((requestDays s rid).map fun dy =>
        (dy.absence_date.year, dy.absence_date.month))
      let entries' :=
        (s.entries.filter (fun e =>
          decide (e.absence_request_id ≠ some rid))).map fun e =>
            if decide (e.consultant_id = req.consultant_id) &&
                affected.any (fun q => inMonth e.work_date q.1 q.2) then
              { e with status := .pending }
            else e
      .ok { s with
        requests := s.requests.filter (fun r => decide (r.id ≠ rid)),
        days := s.days.filter (fun dy => decide (dy.absence_request_id ≠ rid)),
        entries := entries' }

/-- Decision loop of the standalone validator `validate_review_decisions`
(app/utils/absence_validators.py:104-142); `seen` is `decision_day_ids`. -/
def validateDecisionsGo (reqDayIds : List Nat) :
    List (Nat × AbsenceRequestStatus) → List Nat → Except ApiError (List Nat)
  | [], seen => .ok seen
  | (did, st) :: rest, seen =>
    if ¬ did ∈ reqDayIds then .error (.dayNotFound did)
    else if did ∈ seen then .error (.duplicateDecision did)
    else if ¬ (st = .accepted ∨ st = .refused) then .error .statusNotAllowed
    else validateDecisionsGo reqDayIds rest (seen ++ [did])

/-- `validate_review_decisions` (app/utils/absence_validators.py:104-142):
unmatched day ids, duplicate decisions, non-accepted/refused statuses and
missing decisions are all rejected.  The review route does not call it. -/
def validateReviewDecisions (decisions : List (Nat × AbsenceRequestStatus))
    (reqDayIds : List Nat) : Except ApiError Unit :=
  match validateDecisionsGo reqDayIds decisions [] with
  | .error e => .error e
  | .ok seen =>
    if reqDayIds.all (fun i => decide (i ∈ seen)) then .ok ()
    else .error .missingDecisions

/-! Derived observations used by the statements below. -/

/-- Sum of the amounts of all `DailyTimesheetEntry` rows of one consultant on
one date — the quantity the daily-ceiling invariant speaks about. -/
def dailySum (s : DBState) (cid : Nat) (d : Date) : ℤ :=
  amtSum ((s.entries.filter (fun e =>
    decide (e.consultant_id = cid ∧ e.work_date = d))).map (·.amount))

/-- Number of `AbsenceRequestDay` rows of one consultant on one date whose
owning request is not refused — the quantity of the one-claim-per-date
invariant. -/
def nonRefusedDayCount (s : DBState) (cid : Nat) (d : Date) : Nat :=
  (s.days.filter fun dy =>
    decide (dy.absence_date = d) &&
      (match dayRequest s dy with
       | some r => decide (r.consultant_id = cid ∧ r.status ≠ .refused)
       | none => false)).length

/-- The operation answered successfully. -/
def resOk : Except ApiError DBState → Bool
  | .ok _ => true
  | .error _ => false

/-- The operation answered with the date-conflict error. -/
def isConflictErr : Except ApiError DBState → Bool
  | .error (.dateConflict _) => true
  | _ => false

/-- The operation answered with the annual-limit error. -/
def isAnnualErr : Except ApiError DBState → Bool
  | .error (.annualLimitExceeded _ _) => true
  | _ => false

/-- The operation answered with the validated-month lock error. -/
def isLockErr : Except ApiError DBState → Bool
  | .error (.validatedMonthLock _ _) => true
  | _ => false

/-- `accepted` decisions in a review payload. -/
def acceptedCount (l : List (Nat × AbsenceRequestStatus)) : Nat :=
  (l.filter (fun q => decide (q.2 = .accepted))).length

/-- `refused` decisions in a review payload. -/
def refusedCount (l : List (Nat × AbsenceRequestStatus)) : Nat :=
  (l.filter (fun q => decide (q.2 = .refused))).length

/-! Concrete fixtures for the counterexamples and witnesses. -/

/-- A store holding just consultant 1. -/
def c1_base : DBState := ⟨[1], [], [], [], [], [], 1, 1, 1, 1⟩

def c1_mar10 : Date := ⟨2025, 3, 10⟩

/-- January 2025 timesheet whose (unchecked) work date lies in March. -/
def c1_tsJan : TimesheetPayload :=
  ⟨1, 1, 2025, .pending,
    [(c1_mar10, [⟨.internal, 240000, none, some .office, none, none⟩])]⟩

/-- March 2025 timesheet for the same date. -/
def c1_tsMar : TimesheetPayload :=
  ⟨1, 3, 2025, .pending,
    [(c1_mar10, [⟨.internal, 240000, none, some .office, none, none⟩])]⟩

/-- A two-activity one-day payload that `create_timesheet` accepts. -/
def c1w_payload : TimesheetPayload :=
  ⟨5, 2, 2030, .saved,
    [(⟨2030, 2, 3⟩,
      [⟨.internal, 80000, none, some .training, none, none⟩,
       ⟨.internal, 40000, none, some .office, none, none⟩])]⟩

def c1w_state : DBState :=
  (createTimesheet c1w_payload c1_base).toOption.getD c1_base

def c2_base : DBState := ⟨[1], [], [], [], [], [], 1, 1, 1, 1⟩

def c2_d : Date := ⟨2025, 3, 10⟩

/-- First request: one day on `c2_d`, created in the default `saved` state. -/
def c2_p1 : CreatePayload :=
  ⟨1, .cp, .internal, none, none, [(c2_d, 80000)]⟩

/-- Second request: one day elsewhere, created `pending`. -/
def c2_p2 : CreatePayload :=
  ⟨1, .cp, .internal, none, some .pending, [(⟨2025, 4, 2⟩, 80000)]⟩

/-- Update of the second request moving its day onto `c2_d`. -/
def c2_u : UpdatePayload := ⟨none, none, none, some [(c2_d, fullDay)]⟩

/-- Consultant 1 with one pending absence day on 2025-03-10. -/
def c2w_state : DBState :=
  ⟨[1], [], [⟨1, 1, .cp, .pending, none, none⟩],
    [⟨1, 1, ⟨2025, 3, 10⟩, 80000, .pending⟩], [], [], 2, 2, 1, 1⟩

/-- A create payload claiming that same date. -/
def c2w_p : CreatePayload :=
  ⟨1, .rtt, .internal, none, none, [(⟨2025, 3, 10⟩, 40000)]⟩

/-- Consultant 1 with a pending request holding one day in July 2025. -/
def c3_state : DBState :=
  ⟨[1], [], [⟨1, 1, .cp, .pending, none, none⟩],
    [⟨1, 1, ⟨2025, 7, 1⟩, fullDay, .pending⟩], [], [], 2, 2, 1, 1⟩

/-- 26 full days in March 2025. -/
def c3_days : List (Date × ℤ) :=
  (List.range 26).map (fun i => (⟨2025, 3, i + 1⟩, fullDay))

def c3_p : UpdatePayload := ⟨none, none, none, some c3_days⟩

/-- 26 days of 8 hours each for the create path. -/
def c3_cdays : List (Date × ℤ) :=
  (List.range 26).map (fun i => (⟨2025, 3, i + 1⟩, 80000))

def c3_cp : CreatePayload := ⟨1, .cp, .internal, none, none, c3_cdays⟩

def c3_base : DBState := ⟨[1], [], [], [], [], [], 1, 1, 1, 1⟩

/-- A refused request whose March 2025 day coexists with a validated March
timesheet entry. -/
def c7_state : DBState :=
  ⟨[1], [], [⟨1, 1, .cp, .refused, none, none⟩],
    [⟨1, 1, ⟨2025, 3, 10⟩, fullDay, .refused⟩], [⟨1, 1, 3, 2025, .validated⟩],
    [⟨1, 1, ⟨2025, 3, 12⟩, .internal, 80000, .validated, none, some .office,
      none, none, some 1⟩], 2, 2, 2, 2⟩

/-- Replacement day list moving the March day — the month's set changes. -/
def c7_p : UpdatePayload := ⟨none, none, none, some [(⟨2025, 3, 11⟩, fullDay)]⟩

def c4_feb14 : Date := ⟨2025, 2, 14⟩

/-- Consultant 3 with a February 2025 timesheet and one internal entry on
the 14th. -/
def c4_state : DBState :=
  ⟨[3], [], [], [], [⟨1, 3, 2, 2025, .pending⟩],
    [⟨1, 3, c4_feb14, .internal, 80000, .pending, none, some .office, none, none,
      some 1⟩], 1, 1, 2, 2⟩

/-- Absence request of consultant 3 for that very date. -/
def c4_p : CreatePayload :=
  ⟨3, .maladie, .internal, none, none, [(c4_feb14, 80000)]⟩

/-- An accepted request of consultant 4 (for the delete rejection). -/
def c8_state : DBState :=
  ⟨[4], [], [⟨1, 4, .cp, .accepted, none, none⟩],
    [⟨1, 1, ⟨2025, 5, 6⟩, fullDay, .accepted⟩],
    [⟨1, 4, 5, 2025, .pending⟩],
    [⟨1, 4, ⟨2025, 5, 6⟩, .absence, fullDay, .pending, none, none, some .cp,
      some 1, none⟩], 2, 2, 2, 2⟩

def c5_state : DBState :=
  ⟨[1], [], [⟨1, 1, .cp, .pending, none, none⟩],
    [⟨1, 1, ⟨2025, 3, 10⟩, fullDay, .pending⟩,
     ⟨2, 1, ⟨2025, 3, 11⟩, fullDay, .pending⟩],
    [], [], 2, 3, 1, 1⟩

/-- A `partially_accepted` request with two days (any status is reviewable). -/
def c9_state : DBState :=
  ⟨[1], [], [⟨1, 1, .cp, .partiallyAccepted, none, none⟩],
    [⟨1, 1, ⟨2025, 3, 10⟩, fullDay, .accepted⟩,
     ⟨2, 1, ⟨2025, 3, 11⟩, fullDay, .refused⟩], [], [], 2, 3, 1, 1⟩

/-- A pending request with two days whose materialized entries include a
validated one, plus an unlinked project entry. -/
def c10_state : DBState :=
  ⟨[1], [], [⟨1, 1, .cp, .pending, none, none⟩],
    [⟨1, 1, ⟨2025, 3, 10⟩, fullDay, .pending⟩,
     ⟨2, 1, ⟨2025, 3, 11⟩, fullDay, .pending⟩],
    [⟨1, 1, 3, 2025, .validated⟩],
    [⟨1, 1, ⟨2025, 3, 10⟩, .absence, fullDay, .validated, none, none,
      some .cp, some 1, some 1⟩,
     ⟨2, 1, ⟨2025, 3, 11⟩, .absence, fullDay, .pending, none, none, some .cp,
      some 1, none⟩,
     ⟨3, 1, ⟨2025, 3, 12⟩, .project, fullDay, .validated, some 7, none, none,
      none, some 1⟩], 2, 3, 2, 4⟩

def c6_mar10 : Date := ⟨2025, 3, 10⟩

/-- The spec's scenario state: a March 2025 timesheet and a full-day project
entry on 2025-03-10. -/
def c6_cex_state : DBState :=
  ⟨[2], [], [], [], [⟨1, 2, 3, 2025, .pending⟩],
    [⟨1, 2, c6_mar10, .project, fullDay, .pending, some 9, none, none, none,
      some 1⟩], 1, 1, 2, 2⟩

/-- The scenario's triggering operation: creating a half-day absence. -/
def c6_cex_p : CreatePayload :=
  ⟨2, .cp, .internal, none, none, [(c6_mar10, halfDay)]⟩

/-- Scenario state for the update trigger: pending request 1 with a day in
June, a March 2025 timesheet in `saved` status, one full-day project entry
on 2025-03-10. -/
def c6_upd_state : DBState :=
  ⟨[1], [], [⟨1, 1, .cp, .pending, none, none⟩],
    [⟨1, 1, ⟨2025, 6, 5⟩, fullDay, .pending⟩], [⟨1, 1, 3, 2025, .saved⟩],
    [⟨1, 1, c6_mar10, .project, fullDay, .saved, some 4, none, none, none,
      some 1⟩],
    2, 2, 2, 2⟩

def c6_upd_p : UpdatePayload := ⟨none, none, none, some [(c6_mar10, halfDay)]⟩

def c6_sep4 : Date := ⟨2025, 9, 4⟩

/-- Three entries summing to a full day on 2025-09-04 (amounts 0.6, 0.2,
0.2), for the multiple-entries branch of half-day reconciliation. -/
def c6_multi_state : DBState :=
  ⟨[1], [], [⟨1, 1, .rtt, .pending, none, none⟩],
    [⟨1, 1, ⟨2025, 6, 5⟩, fullDay, .pending⟩], [⟨1, 1, 9, 2025, .pending⟩],
    [⟨1, 1, c6_sep4, .project, 6000, .pending, some 4, none, none, none,
      some 1⟩,
     ⟨2, 1, c6_sep4, .internal, 2000, .pending, none, some .office, none, none,
       some 1⟩,
     ⟨3, 1, c6_sep4, .internal, 2000, .pending, none, some .training, none,
       none, some 1⟩],
    2, 2, 2, 4⟩

def c6_multi_p : UpdatePayload := ⟨none, none, none, some [(c6_sep4, halfDay)]⟩

/-! # Theorems -/

/-! Helper lemmas (shared; not tied to a single claim). -/

/-- A successful activity loop returns the accumulated day total, and a
nonempty loop's total passed the 24-hour guard. -/
theorem checkActivities_ok (s : DBState) (cid : Nat) (d : Date) :
    ∀ (acts : List ActivityPayload) (total t : ℤ),
      checkActivities s cid d total acts = .ok t →
      t = total + amtSum (acts.map (·.number_of_hours)) ∧
        (acts = [] ∨ t ≤ 24 * 10000) := by
  intro acts
  induction acts with
  | nil =>
    intro total t h
    simp only [checkActivities] at h
    cases h
    simp [amtSum]
  | cons a rest ih =>
    intro total t h
    simp only [checkActivities] at h
    split at h
    · cases h
    · split at h
      · cases h
      · split at h
        · cases h
        · rename_i hhours hday _ _
          obtain ⟨h1, h2⟩ := ih (total + a.number_of_hours) t h
          constructor
          · simp only [List.map_cons, amtSum, List.foldr_cons] at *
            have : amtSum (List.map (fun x => x.number_of_hours) rest) =
                List.foldr (· + ·) 0
                  (List.map (fun x => x.number_of_hours) rest) := rfl
            omega
          · right
            rcases h2 with h2 | h2
            · subst h2
              simp only [List.map_nil, amtSum, List.foldr_nil] at h1
              omega
            · exact h2

/-- A successful date loop means every date's activity list is nonempty and
passed the activity loop. -/
theorem checkWorkDates_ok (s : DBState) (cid : Nat) :
    ∀ l, checkWorkDates s cid l = none →
      ∀ q ∈ l, q.2 ≠ [] ∧ ∃ t, checkActivities s cid q.1 0 q.2 = .ok t := by
  intro l
  induction l with
  | nil => intro _ q hq; cases hq
  | cons x rest ih =>
    obtain ⟨d, acts⟩ := x
    intro h q hq
    simp only [checkWorkDates] at h
    split at h
    · cases h
    · rename_i hne
      split at h
      · cases h
      · rename_i t ht
        rcases List.mem_cons.mp hq with hq | hq
        · subst hq
          exact ⟨hne, t, ht⟩
        · exact ih h q hq

/-- Inversion of a successful `createTimesheet`: the duplicate-period and
range guards passed and the work-date validation succeeded. -/
theorem createTimesheet_ok_inv (p : TimesheetPayload) (s s' : DBState)
    (h : createTimesheet p s = .ok s') :
    checkWorkDates s p.consultant_id p.work_dates = none := by
  unfold createTimesheet at h
  split at h
  · cases h
  · split at h
    · cases h
    · split at h
      · cases h
      · split at h
        · cases h
        · assumption

/-- C1 (amended): what the code does guarantee is payload-local — whenever a
monthly-timesheet creation succeeds, the hours submitted for each single
date of that payload sum to at most the 24-hour daily ceiling (the route
accumulates each date's hours and rejects as soon as the total exceeds 24).
The cross-operation form of the invariant fails (`C1_counterexample`):
nothing relates a payload's work dates to the declared month or to entries
already stored for the same date, so repeated creations can push one date
beyond any ceiling. -/
theorem C1_per_date_payload_bound (p : TimesheetPayload) (s s' : DBState)
    (h : createTimesheet p s = .ok s') :
    ∀ q ∈ p.work_dates, amtSum (q.2.map (·.number_of_hours)) ≤ 24 * 10000 := by
  intro q hq
  obtain ⟨hne, t, ht⟩ :=
    checkWorkDates_ok s p.consultant_id p.work_dates
      (createTimesheet_ok_inv p s s' h) q hq
  obtain ⟨hteq, hcap⟩ := checkActivities_ok s p.consultant_id q.1 q.2 0 t ht
  rcases hcap with he | hle
  · exact absurd he hne
  · omega

/-- Witness for `C1_per_date_payload_bound` at a concrete two-activity
payload (8 + 4 hours on one date). -/
theorem C1_per_date_payload_bound_witness :
    createTimesheet c1w_payload c1_base = .ok c1w_state ∧
    ∀ q ∈ c1w_payload.work_dates,
      amtSum (q.2.map (·.number_of_hours)) ≤ 24 * 10000 :=
  ⟨by decide, C1_per_date_payload_bound c1w_payload c1_base c1w_state (by decide)⟩

/-- Inversion of the commit stage of `create_absence_request`. -/
theorem createAbsenceInsert_ok (p : CreatePayload) (s s' : DBState)
    (assigned : Option Nat) (h : createAbsenceInsert p s assigned = .ok s') :
    s' = { s with
      requests := s.requests ++
        [⟨s.nextRequestId, p.consultant_id, p.absence_type, p.status.getD .saved,
          assigned, none⟩],
      days := s.days ++
        mkDays s.nextRequestId (p.status.getD .saved) s.nextDayId p.days,
      nextRequestId := s.nextRequestId + 1,
      nextDayId := s.nextDayId + p.days.length } := by
  unfold createAbsenceInsert at h
  split at h
  · cases h
  · cases h
    rfl

/-- C4 (amended): a successful `create_absence_request` persists the request
row and all of its day rows atomically in its single commit — and does
nothing else: the timesheet tables are untouched, because the creation route
contains no reconciliation step (reconciliation runs only in update and
review; see `C4_counterexample`). -/
theorem C4_create_atomic_no_reconciliation (p : CreatePayload) (cy : Nat)
    (s s' : DBState) (h : createAbsenceRequest p cy s = .ok s') :
    s'.entries = s.entries ∧ s'.timesheets = s.timesheets ∧
    (∃ assigned, s'.requests = s.requests ++
      [⟨s.nextRequestId, p.consultant_id, p.absence_type, p.status.getD .saved,
        assigned, none⟩]) ∧
    s'.days = s.days ++
      mkDays s.nextRequestId (p.status.getD .saved) s.nextDayId p.days := by
  have hmission : ∃ assigned, createAbsenceInsert p s assigned = .ok s' := by
    simp only [createAbsenceRequest] at h
    split at h
    · cases h
    · split at h
      · cases h
      · split at h
        · cases h
        · split at h
          · cases h
          · split at h
            · cases h
            · unfold createMissionStage at h
              split at h
              · split at h
                · cases h
                · split at h
                  · cases h
                  · split at h
                    · cases h
                    · exact ⟨_, h⟩
              · exact ⟨_, h⟩
  obtain ⟨assigned, hins⟩ := hmission
  have := createAbsenceInsert_ok p s s' assigned hins
  subst this
  exact ⟨rfl, rfl, ⟨assigned, rfl⟩, rfl⟩

/-- Witness for `C4_create_atomic_no_reconciliation` at the concrete creation
of `c4_p`. -/
theorem C4_create_atomic_no_reconciliation_witness :
    createAbsenceRequest c4_p 2025 c4_state = .ok
      ((createAbsenceRequest c4_p 2025 c4_state).toOption.getD c4_state) ∧
    ((createAbsenceRequest c4_p 2025 c4_state).toOption.getD c4_state).entries
      = c4_state.entries :=
  ⟨by decide,
    (C4_create_atomic_no_reconciliation c4_p 2025 c4_state
      ((createAbsenceRequest c4_p 2025 c4_state).toOption.getD c4_state)
      (by decide)).1⟩

/-- C1 (counterexample): the daily-ceiling invariant is not preserved by the
public operations.  `create_timesheet` never checks that a payload's work
dates lie inside the declared month, and it sums hours only within its own
payload, so a January 2025 timesheet and a March 2025 timesheet can both
carry a 24-hour entry on 2025-03-10 for consultant 1.  After the first
creation the day's sum is 24 (within the ceiling); the second creation also
succeeds and leaves the day at 48 hours, beyond the 24-hour ceiling plus the
0.0001 tolerance (and a fortiori beyond the 8-hour or full-day readings of
the ceiling). -/
theorem C1_counterexample :
    (createTimesheet c1_tsJan c1_base).map (fun s => dailySum s 1 c1_mar10)
        = .ok 240000 ∧
    ((createTimesheet c1_tsJan c1_base).bind
        (createTimesheet c1_tsMar)).map (fun s => dailySum s 1 c1_mar10)
        = .ok 480000 ∧
    ¬ ((480000 : ℤ) ≤ 240000 + 1) := by
  refine ⟨by decide, by decide, by decide⟩

/-- The commit stage of create never answers a date-conflict error. -/
theorem isConflictErr_insert (p : CreatePayload) (s : DBState)
    (assigned : Option Nat) :
    isConflictErr (createAbsenceInsert p s assigned) = false := by
  unfold createAbsenceInsert
  split <;> rfl

/-- The mission stage of create never answers a date-conflict error. -/
theorem isConflictErr_missionStage (p : CreatePayload) (s : DBState) :
    isConflictErr (createMissionStage p s) = false := by
  unfold createMissionStage
  split
  · split
    · rfl
    · split
      · rfl
      · split
        · rfl
        · exact isConflictErr_insert ..
  · exact isConflictErr_insert ..

/-- The commit stage of create never answers an annual-limit error. -/
theorem isAnnualErr_insert (p : CreatePayload) (s : DBState)
    (assigned : Option Nat) :
    isAnnualErr (createAbsenceInsert p s assigned) = false := by
  unfold createAbsenceInsert
  split <;> rfl

/-- The mission stage of create never answers an annual-limit error. -/
theorem isAnnualErr_missionStage (p : CreatePayload) (s : DBState) :
    isAnnualErr (createMissionStage p s) = false := by
  unfold createMissionStage
  split
  · split
    · rfl
    · split
      · rfl
      · split
        · rfl
        · exact isAnnualErr_insert ..
  · exact isAnnualErr_insert ..

/-- The commit stage of update never answers a date-conflict error. -/
theorem isConflictErr_applyStage (s : DBState) (req : AbsenceRequest)
    (newType : AbsenceRequestType) (ns : AbsenceRequestStatus)
    (ds : List (Date × ℤ)) :
    isConflictErr (updateApplyStage s req newType ns ds) = false := by
  unfold updateApplyStage
  split
  · rfl
  · split <;> rfl

/-- The commit stage of update never answers an annual-limit error. -/
theorem isAnnualErr_applyStage (s : DBState) (req : AbsenceRequest)
    (newType : AbsenceRequestType) (ns : AbsenceRequestStatus)
    (ds : List (Date × ℤ)) :
    isAnnualErr (updateApplyStage s req newType ns ds) = false := by
  unfold updateApplyStage
  split
  · rfl
  · split <;> rfl

/-- The conflict stage of update never answers a validated-month lock. -/
theorem isLockErr_conflictStage (s : DBState) (req : AbsenceRequest)
    (newType : AbsenceRequestType) (ns : AbsenceRequestStatus)
    (ds : List (Date × ℤ)) (cy : Nat) :
    isLockErr (updateConflictStage s req newType ns ds cy) = false := by
  simp only [updateConflictStage]
  split
  · rfl
  · split
    · rfl
    · unfold updateApplyStage
      split
      · rfl
      · split <;> rfl

/-- The create conflict query, unfolded to its join semantics. -/
theorem conflictExistsCreate_iff (s : DBState) (cid : Nat) (date : Date) :
    conflictExistsCreate s cid date = true ↔
      ∃ dy ∈ s.days, ∃ r, dayRequest s dy = some r ∧
        r.consultant_id = cid ∧ dy.absence_date = date ∧
        (dy.status = .pending ∨ dy.status = .accepted ∨ dy.status = .saved)
    := by
  unfold conflictExistsCreate
  rw [List.any_eq_true]
  constructor
  · rintro ⟨dy, hdy, hb⟩
    refine ⟨dy, hdy, ?_⟩
    cases hdr : dayRequest s dy with
    | none => rw [hdr] at hb; simp at hb
    | some r =>
      rw [hdr] at hb
      simp only [Bool.and_eq_true, decide_eq_true_eq] at hb
      exact ⟨r, rfl, hb.1.1, hb.1.2, hb.2⟩
  · rintro ⟨dy, hdy, r, hdr, hcid, hdate, hst⟩
    refine ⟨dy, hdy, ?_⟩
    rw [hdr]
    simp [hcid, hdate, hst]

/-- The update conflict query, unfolded to its join semantics. -/
theorem conflictExistsUpdate_iff (s : DBState) (cid rid : Nat) (date : Date) :
    conflictExistsUpdate s cid rid date = true ↔
      ∃ dy ∈ s.days, ∃ r, dayRequest s dy = some r ∧
        r.consultant_id = cid ∧ dy.absence_date = date ∧
        (dy.status = .pending ∨ dy.status = .accepted) ∧
        dy.absence_request_id ≠ rid := by
  unfold conflictExistsUpdate
  rw [List.any_eq_true]
  constructor
  · rintro ⟨dy, hdy, hb⟩
    refine ⟨dy, hdy, ?_⟩
    cases hdr : dayRequest s dy with
    | none => rw [hdr] at hb; simp at hb
    | some r =>
      rw [hdr] at hb
      simp only [Bool.and_eq_true, decide_eq_true_eq] at hb
      exact ⟨r, rfl, hb.1.1.1, hb.1.1.2, hb.1.2, hb.2⟩
  · rintro ⟨dy, hdy, r, hdr, hcid, hdate, hst, hne⟩
    refine ⟨dy, hdy, ?_⟩
    rw [hdr]
    simp [hcid, hdate, hst, hne]

/-- The conflicting-date list of create is nonempty exactly when some
payload date conflicts. -/
theorem conflictDatesCreate_ne (s : DBState) (cid : Nat)
    (ds : List (Date × ℤ)) :
    conflictDatesCreate s cid ds ≠ [] ↔
      ∃ q ∈ ds, conflictExistsCreate s cid q.1 = true := by
  unfold conflictDatesCreate
  rw [ne_eq, List.map_eq_nil_iff, List.filter_eq_nil_iff]
  push_neg
  simp

/-- The conflicting-date list of update is nonempty exactly when some
payload date conflicts. -/
theorem conflictDatesUpdate_ne (s : DBState) (cid rid : Nat)
    (ds : List (Date × ℤ)) :
    conflictDatesUpdate s cid rid ds ≠ [] ↔
      ∃ q ∈ ds, conflictExistsUpdate s cid rid q.1 = true := by
  unfold conflictDatesUpdate
  rw [ne_eq, List.map_eq_nil_iff, List.filter_eq_nil_iff]
  push_neg
  simp

/-- A found request carries the id it was looked up by. -/
theorem findRequest_id (s : DBState) (rid : Nat) (req : AbsenceRequest)
    (h : findRequest s rid = some req) : req.id = rid := by
  have := List.find?_some h
  simpa using this

/-- A found request is one of the stored requests. -/
theorem findRequest_mem (s : DBState) (rid : Nat) (req : AbsenceRequest)
    (h : findRequest s rid = some req) : req ∈ s.requests :=
  List.mem_of_find?_eq_some h

/-- A sum over a filter whose predicate never holds is zero. -/
theorem amtSum_filter_eq_zero {l : List AbsenceRequestDay}
    {f : AbsenceRequestDay → Bool} (h : ∀ dy ∈ l, f dy = false) :
    amtSum ((l.filter f).map (·.amount)) = 0 := by
  rw [List.filter_eq_nil_iff.mpr (by intro a ha; simp [h a ha])]
  rfl

/-- C2 (counterexample): the at-most-one-day-per-date invariant over a
consultant's non-refused requests fails on a reachable state.  Request 1 is
created with a day on 2025-03-10 in the default `saved` state; request 2 is
created `pending` with a day elsewhere and then updated to claim 2025-03-10.
The update's conflict query only looks at `pending`/`accepted` days, so the
`saved` day of request 1 is invisible to it and the update succeeds, leaving
two day rows on 2025-03-10 whose owning requests (`saved` and `pending`) are
both non-refused. -/
theorem C2_counterexample :
    (((createAbsenceRequest c2_p1 2025 c2_base).bind
        (createAbsenceRequest c2_p2 2025)).bind
          (updateAbsenceRequest 2 c2_u 2025)).map
      (fun s => nonRefusedDayCount s 1 c2_d) = .ok 2 := by
  decide

/-- C2 (amended): the date-conflict rule is an operation-level check, not an
invariant.  Create rejects a payload exactly when some requested date already
carries a day of the consultant in `pending`, `accepted` *or `saved`* status;
update (on a pending request) rejects exactly when some requested date
carries a `pending` or `accepted` day of another request of the consultant.
Because `saved` days are invisible to the update check, the global
at-most-one-day-per-date property over non-refused requests does not hold
(`C2_counterexample`). -/
theorem C2_conflict_check_scope :
    (∀ (p : CreatePayload) (cy : Nat) (s : DBState),
      p.consultant_id ∈ s.consultants → p.days ≠ [] →
      (∀ q ∈ p.days, q.2 ≤ 80001) →
      (isConflictErr (createAbsenceRequest p cy s) = true ↔
        ∃ q ∈ p.days, ∃ dy ∈ s.days, ∃ r, dayRequest s dy = some r ∧
          r.consultant_id = p.consultant_id ∧ dy.absence_date = q.1 ∧
          (dy.status = .pending ∨ dy.status = .accepted ∨
            dy.status = .saved))) ∧
    (∀ (rid cy : Nat) (p : UpdatePayload) (s : DBState) (req : AbsenceRequest)
        (ds : List (Date × ℤ)),
      findRequest s rid = some req → req.status = .pending →
      p.days = some ds → ds ≠ [] →
      (∀ q ∈ ds, q.2 = halfDay ∨ q.2 = fullDay) →
      (isConflictErr (updateAbsenceRequest rid p cy s) = true ↔
        ∃ q ∈ ds, ∃ dy ∈ s.days, ∃ r, dayRequest s dy = some r ∧
          r.consultant_id = req.consultant_id ∧ dy.absence_date = q.1 ∧
          (dy.status = .pending ∨ dy.status = .accepted) ∧
          dy.absence_request_id ≠ rid)) := by
  constructor
  · intro p cy s hc hne hhrs
    have hany : (p.days.any fun d => decide (d.2 > 80001)) = false := by
      rw [List.any_eq_false]
      intro q hq
      simpa using not_lt.mpr (hhrs q hq)
    simp only [createAbsenceRequest]
    rw [if_neg (not_not_intro hc), if_neg hne, if_neg (by simp [hany])]
    by_cases hconf : conflictDatesCreate s p.consultant_id p.days = []
    · rw [if_neg (not_not_intro hconf)]
      apply iff_of_false
      · split
        · simp [isConflictErr]
        · simp [isConflictErr_missionStage]
      · intro ⟨q, hq, hrest⟩
        exact (conflictDatesCreate_ne s p.consultant_id p.days).mpr
          ⟨q, hq, (conflictExistsCreate_iff ..).mpr hrest⟩ hconf
    · rw [if_pos hconf]
      apply iff_of_true
      · rfl
      · obtain ⟨q, hq, hcq⟩ := (conflictDatesCreate_ne ..).mp hconf
        exact ⟨q, hq, (conflictExistsCreate_iff ..).mp hcq⟩
  · intro rid cy p s req ds hfind hst hdays hne hfr
    have hrid : req.id = rid := findRequest_id s rid req hfind
    have hall : ds.all (fun d => decide (d.2 = halfDay ∨ d.2 = fullDay))
        = true := by
      rw [List.all_eq_true]
      intro q hq
      simpa using hfr q hq
    have hfindnone : (analyzeAffectedMonths s req.consultant_id
        ((requestDays s rid).map fun dy => (dy.absence_date, dy.amount))
          ds).find? (fun m => decide (req.status = .refused) &&
            decide (m.tsStatus = some .validated) && m.modified) = none := by
      rw [List.find?_eq_none]
      intro m _
      simp [hst]
    simp only [updateAbsenceRequest, hfind, hdays]
    rw [if_neg (by simp [hst]), if_neg (by simp [hst]), if_neg hne,
      if_neg (not_not_intro hall), hfindnone]
    simp only [updateConflictStage, hrid]
    by_cases hconf :
        conflictDatesUpdate s req.consultant_id rid ds = []
    · rw [if_neg (not_not_intro hconf)]
      apply iff_of_false
      · split
        · simp [isConflictErr]
        · simp [isConflictErr_applyStage]
      · intro ⟨q, hq, hrest⟩
        exact (conflictDatesUpdate_ne s req.consultant_id rid ds).mpr
          ⟨q, hq, (conflictExistsUpdate_iff ..).mpr hrest⟩ hconf
    · rw [if_pos hconf]
      apply iff_of_true
      · rfl
      · obtain ⟨q, hq, hcq⟩ := (conflictDatesUpdate_ne ..).mp hconf
        exact ⟨q, hq, (conflictExistsUpdate_iff ..).mp hcq⟩

/-- Witness for `C2_conflict_check_scope`: in the two-request fixture after
both creations, a second update payload for 2025-03-10 — where request 1
holds a `pending` day — is rejected as a conflict. -/
theorem C2_conflict_check_scope_witness :
    (1 : Nat) ∈ c2w_state.consultants ∧ c2w_p.days ≠ [] ∧
    (∀ q ∈ c2w_p.days, q.2 ≤ 80001) ∧
    (isConflictErr (createAbsenceRequest c2w_p 2025 c2w_state) = true ↔
      ∃ q ∈ c2w_p.days, ∃ dy ∈ c2w_state.days, ∃ r,
        dayRequest c2w_state dy = some r ∧
        r.consultant_id = c2w_p.consultant_id ∧ dy.absence_date = q.1 ∧
        (dy.status = .pending ∨ dy.status = .accepted ∨ dy.status = .saved)) :=
  ⟨by decide, by decide, by decide,
    C2_conflict_check_scope.1 c2w_p 2025 c2w_state (by decide) (by decide)
      (by decide)⟩

/-- C3: the annual cap.  (1) In particular: updating a request of a capped
type to 26 full days with zero countable prior days is rejected with
remaining allowance 25 days (250000 in 1/10000 units), and creating 26 days
of 8 hours each is rejected with remaining allowance 200 hours = 25 × 8.
(2)/(3) In general, once the earlier guards pass, create (resp. update with
replaced days) of a capped type answers exactly the annual-limit error
carrying `max 0 (cap − existing)` when the consultant's counted amounts for
the current calendar year plus the requested total exceed the cap (200 hours
for the hour-based create path, 25 days for the fraction-based update path).
(4)/(5) Requests of the unpaid-leave type (Congés Sans Solde) never receive
the annual-limit error, and (6) days belonging to unpaid-leave requests are
never counted in the existing totals. -/
theorem C3_annual_cap :
    (updateAbsenceRequest 1 c3_p 2025 c3_state
        = .error (.annualLimitExceeded 250000 260000) ∧
      createAbsenceRequest c3_cp 2025 c3_base
        = .error (.annualLimitExceeded 2000000 2080000)) ∧
    (∀ (p : CreatePayload) (cy : Nat) (s : DBState),
      p.consultant_id ∈ s.consultants → p.days ≠ [] →
      (∀ q ∈ p.days, q.2 ≤ 80001) →
      conflictDatesCreate s p.consultant_id p.days = [] →
      p.absence_type ≠ .congesSansSolde →
      (createAbsenceRequest p cy s = .error (.annualLimitExceeded
          (max 0 (25 * 8 * 10000 - existingHoursCreate s p.consultant_id cy))
          (amtSum (p.days.map (·.2)))) ↔
        existingHoursCreate s p.consultant_id cy + amtSum (p.days.map (·.2))
          > 25 * 8 * 10000)) ∧
    (∀ (rid cy : Nat) (p : UpdatePayload) (s : DBState) (req : AbsenceRequest)
        (ds : List (Date × ℤ)),
      findRequest s rid = some req → req.status = .pending →
      p.days = some ds → ds ≠ [] →
      (∀ q ∈ ds, q.2 = halfDay ∨ q.2 = fullDay) →
      conflictDatesUpdate s req.consultant_id rid ds = [] →
      p.absence_type.getD req.absence_type ≠ .congesSansSolde →
      (updateAbsenceRequest rid p cy s = .error (.annualLimitExceeded
          (max 0 (25 * 10000 - existingDaysUpdate s req.consultant_id rid cy))
          (amtSum (ds.map (·.2)))) ↔
        existingDaysUpdate s req.consultant_id rid cy +
          amtSum (ds.map (·.2)) > 25 * 10000)) ∧
    (∀ (p : CreatePayload) (cy : Nat) (s : DBState),
      p.absence_type = .congesSansSolde →
      isAnnualErr (createAbsenceRequest p cy s) = false) ∧
    (∀ (rid cy : Nat) (p : UpdatePayload) (s : DBState),
      p.absence_type = some .congesSansSolde →
      isAnnualErr (updateAbsenceRequest rid p cy s) = false) ∧
    (∀ (s : DBState) (cid rid cy : Nat),
      (∀ r ∈ s.requests, r.absence_type = .congesSansSolde) →
      existingHoursCreate s cid cy = 0 ∧
        existingDaysUpdate s cid rid cy = 0) := by
  refine ⟨⟨by decide, by decide⟩, ?_, ?_, ?_, ?_, ?_⟩
  · intro p cy s hc hne hhrs hconf hcss
    have hany : (p.days.any fun d => decide (d.2 > 80001)) = false := by
      rw [List.any_eq_false]
      intro q hq
      simpa using not_lt.mpr (hhrs q hq)
    simp only [createAbsenceRequest]
    rw [if_neg (not_not_intro hc), if_neg hne, if_neg (by simp [hany]),
      if_neg (not_not_intro hconf)]
    by_cases hgt : existingHoursCreate s p.consultant_id cy +
        amtSum (p.days.map (·.2)) > 25 * 8 * 10000
    · rw [if_pos ⟨hcss, hgt⟩]
      exact iff_of_true rfl hgt
    · rw [if_neg (fun hco => hgt hco.2)]
      apply iff_of_false
      · intro heq
        have h2 := isAnnualErr_missionStage p s
        rw [heq] at h2
        simp [isAnnualErr] at h2
      · exact hgt
  · intro rid cy p s req ds hfind hst hdays hne hfr hconf hcss
    have hrid : req.id = rid := findRequest_id s rid req hfind
    have hall : ds.all (fun d => decide (d.2 = halfDay ∨ d.2 = fullDay))
        = true := by
      rw [List.all_eq_true]
      intro q hq
      simpa using hfr q hq
    have hfindnone : (analyzeAffectedMonths s req.consultant_id
        ((requestDays s rid).map fun dy => (dy.absence_date, dy.amount))
          ds).find? (fun m => decide (req.status = .refused) &&
            decide (m.tsStatus = some .validated) && m.modified) = none := by
      rw [List.find?_eq_none]
      intro m _
      simp [hst]
    simp only [updateAbsenceRequest, hfind, hdays]
    rw [if_neg (by simp [hst]), if_neg (by simp [hst]), if_neg hne,
      if_neg (not_not_intro hall), hfindnone]
    simp only [updateConflictStage, hrid]
    rw [if_neg (not_not_intro hconf)]
    by_cases hgt : existingDaysUpdate s req.consultant_id rid cy +
        amtSum (ds.map (·.2)) > 25 * 10000
    · rw [if_pos ⟨hcss, hgt⟩]
      exact iff_of_true rfl hgt
    · rw [if_neg (fun hco => hgt hco.2)]
      apply iff_of_false
      · intro heq
        have h2 := isAnnualErr_applyStage s req
          (p.absence_type.getD req.absence_type) (p.status.getD .pending) ds
        rw [heq] at h2
        simp [isAnnualErr] at h2
      · exact hgt
  · intro p cy s hcss
    simp only [createAbsenceRequest]
    split
    · rfl
    · split
      · rfl
      · split
        · rfl
        · split
          · rfl
          · split
            · rename_i hcond
              exact absurd hcss hcond.1
            · exact isAnnualErr_missionStage ..
  · intro rid cy p s hcss
    simp only [updateAbsenceRequest]
    split
    · rfl
    · split
      · rfl
      · split
        · rfl
        · split
          · split
            · rfl
            · rfl
          · split
            · rfl
            · split
              · rfl
              · split
                · rfl
                · simp only [updateConflictStage]
                  split
                  · rfl
                  · split
                    · rename_i hcond
                      exact absurd hcond.1 (by simp [hcss])
                    · exact isAnnualErr_applyStage ..
  · intro s cid rid cy hAll
    constructor
    · unfold existingHoursCreate
      apply amtSum_filter_eq_zero
      intro dy hdy
      cases hdr : dayRequest s dy with
      | none => simp [hdr]
      | some r =>
        have hr : r ∈ s.requests := findRequest_mem s _ r hdr
        simp [hdr, hAll r hr]
    · unfold existingDaysUpdate
      apply amtSum_filter_eq_zero
      intro dy hdy
      cases hdr : dayRequest s dy with
      | none => simp [hdr]
      | some r =>
        have hr : r ∈ s.requests := findRequest_mem s _ r hdr
        simp [hdr, hAll r hr]

/-- Witness for `C3_annual_cap` (the create-path conjunct) at the concrete
26 × 8-hour payload: every hypothesis holds and the iff is instantiated. -/
theorem C3_annual_cap_witness :
    ((1 : Nat) ∈ c3_base.consultants ∧ c3_cp.days ≠ [] ∧
      (∀ q ∈ c3_cp.days, q.2 ≤ 80001) ∧
      conflictDatesCreate c3_base 1 c3_cp.days = [] ∧
      c3_cp.absence_type ≠ .congesSansSolde) ∧
    (createAbsenceRequest c3_cp 2025 c3_base = .error (.annualLimitExceeded
        (max 0 (25 * 8 * 10000 - existingHoursCreate c3_base 1 2025))
        (amtSum (c3_cp.days.map (·.2)))) ↔
      existingHoursCreate c3_base 1 2025 + amtSum (c3_cp.days.map (·.2))
        > 25 * 8 * 10000) :=
  ⟨⟨by decide, by decide, by decide, by decide, by decide⟩,
    C3_annual_cap.2.1 c3_cp 2025 c3_base (by decide) (by decide) (by decide)
      (by decide) (by decide)⟩

/-- C4 (counterexample): `create_absence_request` performs no timesheet
reconciliation.  Consultant 3 has a February 2025 timesheet with an internal
entry on 2025-02-14; creating an absence request for that very date succeeds
and leaves the timesheet entries exactly unchanged — no entry is adjusted and
no absence slice is inserted, although the claim says reconciliation is
triggered for each requested day in the same operation. -/
theorem C4_counterexample :
    (createAbsenceRequest c4_p 2025 c4_state).map (fun s => s.entries)
        = .ok c4_state.entries ∧
    c4_state.timesheets.any (fun t =>
        decide (t.consultant_id = 3 ∧ t.month = 2 ∧ t.year = 2025)) = true ∧
    c4_state.entries.all (fun e => decide (e.activity_type ≠ .absence))
        = true := by
  decide

/-- C7: updating a refused request with a replacement day list is blocked by
the validated-month lock exactly when some month touched by the old or new
days has a changed (date, amount) day set and its timesheet is validated —
where the month's timesheet status is, as the code computes it in
`analyze_affected_months`, the status of the consultant's first daily entry
in that month.  If every affected month's day set is unchanged or its status
is not validated, this rule does not fire (later rules may still reject). -/
theorem C7_validated_month_lock (rid cy : Nat) (p : UpdatePayload)
    (s : DBState) (req : AbsenceRequest) (ds : List (Date × ℤ))
    (hfind : findRequest s rid = some req)
    (hst : req.status = .refused)
    (hdays : p.days = some ds)
    (hne : ds ≠ [])
    (hfr : ∀ q ∈ ds, q.2 = halfDay ∨ q.2 = fullDay) :
    isLockErr (updateAbsenceRequest rid p cy s) = true ↔
      ∃ m ∈ analyzeAffectedMonths s req.consultant_id
          ((requestDays s rid).map fun dy => (dy.absence_date, dy.amount)) ds,
        m.tsStatus = some .validated ∧ m.modified = true := by
  have hall : ds.all (fun d => decide (d.2 = halfDay ∨ d.2 = fullDay))
      = true := by
    rw [List.all_eq_true]
    intro q hq
    simpa using hfr q hq
  simp only [updateAbsenceRequest, hfind, hdays]
  rw [if_neg (by simp [hst]), if_neg (by simp [hst]), if_neg hne,
    if_neg (not_not_intro hall)]
  cases hfq : (analyzeAffectedMonths s req.consultant_id
      ((requestDays s rid).map fun dy => (dy.absence_date, dy.amount))
        ds).find? (fun m => decide (req.status = .refused) &&
          decide (m.tsStatus = some .validated) && m.modified) with
  | some m =>
    simp only [hfq]
    apply iff_of_true rfl
    have hmem := List.mem_of_find?_eq_some hfq
    have hpred := List.find?_some hfq
    simp only [Bool.and_eq_true, decide_eq_true_eq] at hpred
    exact ⟨m, hmem, hpred.1.2, hpred.2⟩
  | none =>
    simp only [hfq]
    apply iff_of_false
    · simp [isLockErr_conflictStage]
    · rintro ⟨m, hm, hts, hmod⟩
      have := List.find?_eq_none.mp hfq m hm
      simp [hst, hts, hmod] at this

/-- Witness for `C7_validated_month_lock` at the concrete fixture: the
refused request's update is blocked and the offending month exists. -/
theorem C7_validated_month_lock_witness :
    (findRequest c7_state 1 = some ⟨1, 1, .cp, .refused, none, none⟩ ∧
      c7_p.days = some [(⟨2025, 3, 11⟩, fullDay)] ∧
      ([(⟨2025, 3, 11⟩, fullDay)] : List (Date × ℤ)) ≠ [] ∧
      (∀ q ∈ ([(⟨2025, 3, 11⟩, fullDay)] : List (Date × ℤ)),
        q.2 = halfDay ∨ q.2 = fullDay)) ∧
    (isLockErr (updateAbsenceRequest 1 c7_p 2025 c7_state) = true ↔
      ∃ m ∈ analyzeAffectedMonths c7_state 1
          ((requestDays c7_state 1).map fun dy => (dy.absence_date, dy.amount))
          [(⟨2025, 3, 11⟩, fullDay)],
        m.tsStatus = some .validated ∧ m.modified = true) :=
  ⟨⟨by decide, by decide, by decide, by decide⟩,
    C7_validated_month_lock 1 2025 c7_p c7_state ⟨1, 1, .cp, .refused, none, none⟩
      [(⟨2025, 3, 11⟩, fullDay)] (by decide) rfl rfl (by decide) (by decide)⟩

/-- Membership in `insertMonth`. -/
theorem mem_insertMonth (p q : Nat × Nat) :
    ∀ l, q ∈ insertMonth p l ↔ q = p ∨ q ∈ l := by
  intro l
  induction l with
  | nil => simp [insertMonth]
  | cons r rest ih =>
    simp only [insertMonth]
    split
    · rename_i hpr
      subst hpr
      simp only [List.mem_cons]
      tauto
    · split
      · simp [List.mem_cons]
      · simp only [List.mem_cons, ih]
        tauto

/-- `sortedMonths` holds exactly the months of its input. -/
theorem mem_sortedMonths (l : List (Nat × Nat)) (q : Nat × Nat) :
    q ∈ sortedMonths l ↔ q ∈ l := by
  have hgen : ∀ (l : List (Nat × Nat)) (acc : List (Nat × Nat)),
      q ∈ l.foldl (fun acc p => insertMonth p acc) acc ↔ q ∈ acc ∨ q ∈ l := by
    intro l
    induction l with
    | nil => intro acc; simp
    | cons r rest ih =>
      intro acc
      simp only [List.foldl_cons, ih, mem_insertMonth, List.mem_cons]
      tauto
  simpa [sortedMonths] using hgen l []

/-- C8: delete is allowed only from {pending, refused} and otherwise rejects
with a state error, leaving the store unchanged (errors are answered before
the commit).  On success: the request and all of its day rows are gone,
every timesheet entry created from the request is gone, the consultant's
remaining entries in every month touched by the request's days are reset to
`pending`, and remaining entries outside those months (or belonging to other
consultants) are untouched. -/
theorem C8_delete_policy :
    (∀ (rid : Nat) (s : DBState) (req : AbsenceRequest),
      findRequest s rid = some req →
      req.status ≠ .pending → req.status ≠ .refused →
      deleteAbsenceRequest rid s = .error .stateNotDeletable) ∧
    (∀ (rid : Nat) (s : DBState) (req : AbsenceRequest),
      findRequest s rid = some req →
      req.status = .pending ∨ req.status = .refused →
      ∃ s', deleteAbsenceRequest rid s = .ok s' ∧
        (∀ r ∈ s'.requests, r.id ≠ rid) ∧
        (∀ dy ∈ s'.days, dy.absence_request_id ≠ rid) ∧
        (∀ e ∈ s'.entries, e.absence_request_id ≠ some rid) ∧
        (∀ e ∈ s.entries, e.absence_request_id ≠ some rid →
          e.consultant_id = req.consultant_id →
          (∃ dy ∈ s.days, dy.absence_request_id = rid ∧
            inMonth e.work_date dy.absence_date.year dy.absence_date.month
              = true) →
          { e with status := TimesheetStatus.pending } ∈ s'.entries) ∧
        (∀ e ∈ s.entries, e.absence_request_id ≠ some rid →
          (e.consultant_id ≠ req.consultant_id ∨
            (∀ dy ∈ s.days, dy.absence_request_id = rid →
              inMonth e.work_date dy.absence_date.year dy.absence_date.month
                = false)) →
          e ∈ s'.entries)) := by
  constructor
  · intro rid s req hfind h1 h2
    simp only [deleteAbsenceRequest, hfind]
    rw [if_pos (by simp [h1, h2])]
  · intro rid s req hfind hok
    have hdel : deleteAbsenceRequest rid s = .ok
        { s with
          requests := s.requests.filter (fun r => decide (r.id ≠ rid)),
          days := s.days.filter (fun dy =>
            decide (dy.absence_request_id ≠ rid)),
          entries := (s.entries.filter (fun e =>
            decide (e.absence_request_id ≠ some rid))).map fun e =>
              if decide (e.consultant_id = req.consultant_id) &&
                  (sortedMonths ((requestDays s rid).map fun dy =>
                    (dy.absence_date.year, dy.absence_date.month))).any
                    (fun q => inMonth e.work_date q.1 q.2) then
                { e with status := .pending }
              else e } := by
      simp only [deleteAbsenceRequest, hfind]
      rw [if_neg (not_not_intro hok)]
    refine ⟨_, hdel, ?_, ?_, ?_, ?_, ?_⟩
    · intro r hr
      simpa using (List.mem_filter.mp hr).2
    · intro dy hdy
      simpa using (List.mem_filter.mp hdy).2
    · intro e he
      obtain ⟨x, hx, hxe⟩ := List.mem_map.mp he
      have hxr : x.absence_request_id ≠ some rid := by
        simpa using (List.mem_filter.mp hx).2
      subst hxe
      split <;> simpa using hxr
    · intro e he hner hcons ⟨dy, hdy, hdyr, hin⟩
      have hef : e ∈ s.entries.filter (fun e =>
          decide (e.absence_request_id ≠ some rid)) :=
        List.mem_filter.mpr ⟨he, by simpa using hner⟩
      have hcond : (decide (e.consultant_id = req.consultant_id) &&
          (sortedMonths ((requestDays s rid).map fun dy =>
            (dy.absence_date.year, dy.absence_date.month))).any
            (fun q => inMonth e.work_date q.1 q.2)) = true := by
        rw [Bool.and_eq_true]
        refine ⟨by simpa using hcons, ?_⟩
        rw [List.any_eq_true]
        refine ⟨(dy.absence_date.year, dy.absence_date.month), ?_, hin⟩
        rw [mem_sortedMonths]
        exact List.mem_map_of_mem _
          (List.mem_filter.mpr ⟨hdy, by simpa using hdyr⟩)
      exact List.mem_map.mpr ⟨e, hef, if_pos hcond⟩
    · intro e he hner hcase
      have hef : e ∈ s.entries.filter (fun e =>
          decide (e.absence_request_id ≠ some rid)) :=
        List.mem_filter.mpr ⟨he, by simpa using hner⟩
      have hcond : (decide (e.consultant_id = req.consultant_id) &&
          (sortedMonths ((requestDays s rid).map fun dy =>
            (dy.absence_date.year, dy.absence_date.month))).any
            (fun q => inMonth e.work_date q.1 q.2)) = false := by
      -- the condition fails in both cases of `hcase`
        rcases hcase with hc | hmonths
        · simp [hc]
        · rw [Bool.and_eq_false_iff]
          right
          rw [List.any_eq_false]
          rintro q hq
          rw [mem_sortedMonths] at hq
          obtain ⟨dy, hdy, hq⟩ := List.mem_map.mp hq
          have hdyr : dy.absence_request_id = rid := by
            simpa using (List.mem_filter.mp hdy).2
          have := hmonths dy (List.mem_filter.mp hdy).1 hdyr
          subst hq
          simp [this]
      exact List.mem_map.mpr ⟨e, hef, if_neg (by simp [hcond])⟩

/-- Witness for `C8_delete_policy`: deleting the concrete accepted request is
rejected with the state error. -/
theorem C8_delete_policy_witness :
    (findRequest c8_state 1 = some ⟨1, 4, .cp, .accepted, none, none⟩ ∧
      (AbsenceRequestStatus.accepted ≠ .pending) ∧
      (AbsenceRequestStatus.accepted ≠ .refused)) ∧
    deleteAbsenceRequest 1 c8_state = .error .stateNotDeletable :=
  ⟨⟨by decide, by decide, by decide⟩,
    C8_delete_policy.1 1 c8_state ⟨1, 4, .cp, .accepted, none, none⟩
      (by decide) (by decide) (by decide)⟩

/-- C5 (counterexample): the review route rejects neither an incomplete
decision list nor duplicate decisions.  On a pending request with two days,
a list deciding only day 1 is processed successfully, and so is a list that
decides day 1 twice — both contradicting the claim that every day must
receive exactly one decision. -/
theorem C5_counterexample :
    resOk (reviewAbsenceRequest 1 "hr@company.com" [(1, .accepted)] c5_state)
        = true ∧
    resOk (reviewAbsenceRequest 1 "hr@company.com"
        [(1, .accepted), (1, .refused), (2, .accepted)] c5_state) = true := by
  decide

theorem acceptedCount_cons (q : Nat × AbsenceRequestStatus)
    (l : List (Nat × AbsenceRequestStatus)) :
    acceptedCount (q :: l) =
      (if q.2 = .accepted then 1 else 0) + acceptedCount l := by
  by_cases h : q.2 = .accepted <;>
    simp [acceptedCount, List.filter_cons, h, Nat.add_comm]

theorem refusedCount_cons (q : Nat × AbsenceRequestStatus)
    (l : List (Nat × AbsenceRequestStatus)) :
    refusedCount (q :: l) =
      (if q.2 = .refused then 1 else 0) + refusedCount l := by
  by_cases h : q.2 = .refused <;>
    simp [refusedCount, List.filter_cons, h, Nat.add_comm]

/-- The decision loop succeeds on any list of well-formed decisions (each
names a day of the request and decides accepted/refused), counting one
acceptance or refusal per decision and keeping the day rows' keys. -/
theorem applyDecisions_ok (rid : Nat) :
    ∀ (l : List (Nat × AbsenceRequestStatus)) (days : List AbsenceRequestDay)
      (a r : Nat),
      (∀ q ∈ l, (∃ dy ∈ days, dy.id = q.1 ∧ dy.absence_request_id = rid) ∧
        (q.2 = .accepted ∨ q.2 = .refused)) →
      ∃ days', applyDecisions rid l days a r =
          .ok (days', a + acceptedCount l, r + refusedCount l) ∧
        days'.map (fun dy => (dy.id, dy.absence_request_id)) =
          days.map (fun dy => (dy.id, dy.absence_request_id)) := by
  intro l
  induction l with
  | nil =>
    intro days a r _
    exact ⟨days, by simp [applyDecisions, acceptedCount, refusedCount], rfl⟩
  | cons q rest ih =>
    obtain ⟨did, st⟩ := q
    intro days a r hwf
    obtain ⟨⟨dy, hdy, hid, harid⟩, hst⟩ := hwf _ (List.mem_cons_self _ _)
    have hany : days.any (fun dy =>
        decide (dy.id = did ∧ dy.absence_request_id = rid)) = true :=
      List.any_eq_true.mpr ⟨dy, hdy, by simp [hid, harid]⟩
    have hwf' : ∀ q ∈ rest,
        (∃ dy ∈ days.map (fun dy =>
          if dy.id = did ∧ dy.absence_request_id = rid then
            { dy with status := st } else dy),
          dy.id = q.1 ∧ dy.absence_request_id = rid) ∧
        (q.2 = .accepted ∨ q.2 = .refused) := by
      intro q hq
      obtain ⟨⟨dy2, hdy2, hid2, harid2⟩, hst2⟩ :=
        hwf q (List.mem_cons_of_mem _ hq)
      refine ⟨⟨_, List.mem_map_of_mem _ hdy2, ?_, ?_⟩, hst2⟩
      · split <;> simpa using hid2
      · split <;> simpa using harid2
    obtain ⟨days', heq, hmap⟩ := ih _
      (if st = .accepted then a + 1 else a)
      (if st = .accepted then r else r + 1) hwf'
    refine ⟨days', ?_, ?_⟩
    · simp only [applyDecisions]
      rw [if_pos hany, if_pos hst, heq]
      simp only [Except.ok.injEq, Prod.mk.injEq]
      refine ⟨trivial, ?_, ?_⟩ <;>
        rcases hst with h | h <;> subst h <;>
          simp [acceptedCount_cons, refusedCount_cons] <;> omega
    · rw [hmap]
      simp only [List.map_map]
      apply List.map_congr_left
      intro x _
      simp only [Function.comp]
      split <;> rfl

/-- Review succeeds on any found request — no status precondition — for any
well-formed decision list, and re-derives the aggregate status from the
counters. -/
theorem review_ok_of_wf (rid : Nat) (rb : String)
    (decisions : List (Nat × AbsenceRequestStatus)) (s : DBState)
    (req : AbsenceRequest)
    (hfind : findRequest s rid = some req)
    (hwf : ∀ q ∈ decisions,
      (∃ dy ∈ s.days, dy.id = q.1 ∧ dy.absence_request_id = rid) ∧
      (q.2 = .accepted ∨ q.2 = .refused)) :
    ∃ s', reviewAbsenceRequest rid rb decisions s = .ok s' ∧
      s'.requests = s.requests.map fun r =>
        if r.id = rid then
          { r with
            status := deriveStatus (acceptedCount decisions)
              (refusedCount decisions)
              ((s.days.filter (fun dy =>
                decide (dy.absence_request_id = rid))).length),
            reviewed_by := some rb }
        else r := by
  obtain ⟨days', happly, hmap⟩ := applyDecisions_ok rid decisions s.days 0 0 hwf
  have harid : days'.map (·.absence_request_id)
      = s.days.map (·.absence_request_id) := by
    have h2 := congrArg (List.map Prod.snd) hmap
    simpa [List.map_map, Function.comp] using h2
  have htotal : (days'.filter fun dy =>
        decide (dy.absence_request_id = rid)).length
      = (s.days.filter fun dy =>
        decide (dy.absence_request_id = rid)).length := by
    rw [← List.countP_eq_length_filter, ← List.countP_eq_length_filter]
    have h3 := congrArg (List.countP (fun o => decide (o = rid))) harid
    rw [List.countP_map, List.countP_map] at h3
    simpa [Function.comp] using h3
  simp only [reviewAbsenceRequest, hfind, happly, Nat.zero_add]
  split
  · exact ⟨_, rfl, by simp only [htotal]⟩
  · split
    · exact ⟨_, rfl, by simp only [htotal]⟩
    · exact ⟨_, rfl, by simp only [htotal]⟩

/-- C9: review has no precondition on the request's current status — for a
request in any state, a review whose decisions are well formed (each names a
day of the request and decides accepted or refused) is processed: the
operation answers success and the request's aggregate status is re-derived
from the acceptance/refusal counters against the number of the request's
days.  No branch of the operation rejects on the request's state. -/
theorem C9_review_no_status_precondition (rid : Nat) (rb : String)
    (decisions : List (Nat × AbsenceRequestStatus)) (s : DBState)
    (req : AbsenceRequest)
    (hfind : findRequest s rid = some req)
    (hwf : ∀ q ∈ decisions,
      (∃ dy ∈ s.days, dy.id = q.1 ∧ dy.absence_request_id = rid) ∧
      (q.2 = .accepted ∨ q.2 = .refused)) :
    ∃ s', reviewAbsenceRequest rid rb decisions s = .ok s' ∧
      s'.requests = s.requests.map fun r =>
        if r.id = rid then
          { r with
            status := deriveStatus (acceptedCount decisions)
              (refusedCount decisions)
              ((s.days.filter (fun dy =>
                decide (dy.absence_request_id = rid))).length),
            reviewed_by := some rb }
        else r :=
  review_ok_of_wf rid rb decisions s req hfind hwf

/-- Witness for `C9_review_no_status_precondition`: a request already in
`partially_accepted` state (outside every editable/deletable set) is
reviewed successfully. -/
theorem C9_review_no_status_precondition_witness :
    (findRequest c9_state 1 = some ⟨1, 1, .cp, .partiallyAccepted, none, none⟩ ∧
      (∀ q ∈ ([(1, .refused), (2, .refused)] :
          List (Nat × AbsenceRequestStatus)),
        (∃ dy ∈ c9_state.days, dy.id = q.1 ∧ dy.absence_request_id = 1) ∧
        (q.2 = .accepted ∨ q.2 = .refused))) ∧
    (∃ s', reviewAbsenceRequest 1 "hr@company.com"
        [(1, .refused), (2, .refused)] c9_state = .ok s' ∧
      s'.requests = c9_state.requests.map fun r =>
        if r.id = 1 then
          { r with
            status := deriveStatus
              (acceptedCount [(1, .refused), (2, .refused)])
              (refusedCount [(1, .refused), (2, .refused)])
              ((c9_state.days.filter (fun dy =>
                decide (dy.absence_request_id = 1))).length),
            reviewed_by := some "hr@company.com" }
        else r) :=
  ⟨⟨by decide, by decide⟩,
    C9_review_no_status_precondition 1 "hr@company.com"
      [(1, .refused), (2, .refused)] c9_state
      ⟨1, 1, .cp, .partiallyAccepted, none, none⟩ (by decide) (by decide)⟩

/-- C5 (amended): the review route itself checks only that each decision
names a day of the request and carries an accepted/refused status — a
decision with an unknown day id is rejected, but duplicate decisions and
lists leaving days undecided are processed successfully
(`C5_counterexample`).  The full rule the claim describes exists only in the
standalone validator `validate_review_decisions`, which rejects unknown ids,
duplicates, bad statuses and missing decisions — but the route never calls
it. -/
theorem C5_review_decision_checks :
    (∀ (rid : Nat) (rb : String) (did : Nat) (st : AbsenceRequestStatus)
        (s : DBState) (req : AbsenceRequest),
      findRequest s rid = some req →
      (∀ dy ∈ s.days, ¬ (dy.id = did ∧ dy.absence_request_id = rid)) →
      reviewAbsenceRequest rid rb [(did, st)] s = .error (.dayNotFound did)) ∧
    (∀ (rid : Nat) (rb : String)
        (decisions : List (Nat × AbsenceRequestStatus)) (s : DBState)
        (req : AbsenceRequest),
      findRequest s rid = some req →
      (∀ q ∈ decisions,
        (∃ dy ∈ s.days, dy.id = q.1 ∧ dy.absence_request_id = rid) ∧
        (q.2 = .accepted ∨ q.2 = .refused)) →
      ∃ s', reviewAbsenceRequest rid rb decisions s = .ok s') ∧
    (validateReviewDecisions [(1, .accepted)] [1, 2]
        = .error .missingDecisions ∧
      validateReviewDecisions [(1, .accepted), (1, .refused)] [1, 2]
        = .error (.duplicateDecision 1) ∧
      validateReviewDecisions [(3, .accepted)] [1, 2]
        = .error (.dayNotFound 3) ∧
      validateReviewDecisions [(1, .accepted), (2, .refused)] [1, 2]
        = .ok ()) := by
  refine ⟨?_, ?_, by decide, by decide, by decide, by decide⟩
  · intro rid rb did st s req hfind hnone
    have hany : (s.days.any fun dy =>
        decide (dy.id = did ∧ dy.absence_request_id = rid)) = false := by
      rw [List.any_eq_false]
      intro dy hdy
      simpa using hnone dy hdy
    have happ : applyDecisions rid [(did, st)] s.days 0 0
        = .error (.dayNotFound did) := by
      simp only [applyDecisions]
      rw [if_neg (by rw [hany]; simp)]
    simp only [reviewAbsenceRequest, hfind, happ]
  · intro rid rb decisions s req hfind hwf
    obtain ⟨s', h, _⟩ := review_ok_of_wf rid rb decisions s req hfind hwf
    exact ⟨s', h⟩

/-- Witness for `C5_review_decision_checks`: deciding the unknown day id 99
on the two-day fixture request is rejected with the day-not-found error. -/
theorem C5_review_decision_checks_witness :
    (findRequest c5_state 1 = some ⟨1, 1, .cp, .pending, none, none⟩ ∧
      (∀ dy ∈ c5_state.days, ¬ (dy.id = 99 ∧ dy.absence_request_id = 1))) ∧
    reviewAbsenceRequest 1 "hr@company.com" [(99, .accepted)] c5_state
      = .error (.dayNotFound 99) :=
  ⟨⟨by decide, by decide⟩,
    C5_review_decision_checks.1 1 "hr@company.com" 99 .accepted c5_state
      ⟨1, 1, .cp, .pending, none, none⟩ (by decide) (by decide)⟩

/-- `applyPlan` keeps a row that is neither deleted nor shrunk. -/
theorem applyPlan_mem (ids : List Nat) (fh : Option Nat)
    (es : List DailyTimesheetEntry) (e : DailyTimesheetEntry)
    (he : e ∈ es) (hdel : ¬ e.id ∈ ids) (hfh : fh ≠ some e.id) :
    e ∈ applyPlan ids fh es := by
  unfold applyPlan
  exact List.mem_map.mpr
    ⟨e, List.mem_filter.mpr ⟨he, by simpa using hdel⟩, if_neg hfh⟩

/-- `applyPlan` does not change row ids. -/
theorem applyPlan_ids (ids : List Nat) (fh : Option Nat)
    (es : List DailyTimesheetEntry) :
    (applyPlan ids fh es).map (·.id)
      = (es.filter (fun x => decide (¬ x.id ∈ ids))).map (·.id) := by
  unfold applyPlan
  simp only [List.map_map]
  apply List.map_congr_left
  intro x _
  simp only [Function.comp]
  split <;> rfl

/-- Every id of an `applyPlan` result is an id of the input list. -/
theorem applyPlan_id_mem {ids : List Nat} {fh : Option Nat}
    {es : List DailyTimesheetEntry} {x : DailyTimesheetEntry}
    (hx : x ∈ applyPlan ids fh es) : x.id ∈ es.map (·.id) := by
  unfold applyPlan at hx
  obtain ⟨y, hy, hyx⟩ := List.mem_map.mp hx
  have hyid : x.id = y.id := by
    rw [← hyx]
    split <;> rfl
  rw [hyid]
  exact List.mem_map_of_mem _ (List.mem_filter.mp hy).1

/-- The half-day plan only names ids of the date's entries. -/
theorem halfDayPlan_ids (des : List DailyTimesheetEntry) :
    (∀ i ∈ (halfDayPlan des).1, i ∈ des.map (·.id)) ∧
    (∀ i, (halfDayPlan des).2 = some i → i ∈ des.map (·.id)) := by
  cases des with
  | nil => simp [halfDayPlan]
  | cons first rest =>
    simp only [halfDayPlan]
    split
    · split
      · refine ⟨by simp, ?_⟩
        intro i hi
        cases hi
        simp
      · split
        · exact ⟨by simp, by intro i hi; cases hi⟩
        · rename_i lastE hlast
          have hlmem : lastE ∈ first :: rest := by
            obtain ⟨hne, heq⟩ := List.mem_getLast?_eq_getLast
              (show lastE ∈ (first :: rest).getLast? by
                rw [hlast]; rfl)
            rw [heq]
            exact List.getLast_mem hne
          split
          · constructor
            · intro i hi
              obtain ⟨y, hy, rfl⟩ := List.mem_map.mp hi
              exact List.mem_map_of_mem _ (List.mem_cons_of_mem _ hy)
            · intro i hi
              cases hi
              simp
          · refine ⟨?_, by intro i hi; cases hi⟩
            intro i hi
            cases hi with
            | head => exact List.mem_map_of_mem _ hlmem
            | tail _ h => cases h
    · split
      · exact ⟨by simp, by intro i hi; cases hi⟩
      · constructor
        · intro i hi
          obtain ⟨y, hy, rfl⟩ := List.mem_map.mp hi
          exact List.mem_map_of_mem _ (List.mem_cons_of_mem _ hy)
        · intro i hi
          cases hi
          simp

/-- Appending the fresh absence entry to a shrunken entry list keeps the id
discipline: ids stay unique, stay below the next counter, and every id
either comes from the original list or is the fresh one. -/
theorem append_mk_invariants (es' es : List DailyTimesheetEntry)
    (fresh cid rid : Nat) (d : Date) (amt : ℤ) (atype : AbsenceRequestType)
    (hsub : ∀ x ∈ es', x.id ∈ es.map (·.id))
    (hnd : (es'.map (·.id)).Nodup)
    (hlt : ∀ x ∈ es, x.id < fresh) :
    (((es' ++ [mkAbsenceEntry fresh cid d amt atype rid]).map (·.id)).Nodup) ∧
    (∀ x ∈ es' ++ [mkAbsenceEntry fresh cid d amt atype rid],
      x.id < fresh + 1) ∧
    (∀ x ∈ es' ++ [mkAbsenceEntry fresh cid d amt atype rid],
      x.id ∈ es.map (·.id) ∨ fresh ≤ x.id) := by
  have hlt' : ∀ i ∈ es.map (·.id), i < fresh := by
    intro i hi
    obtain ⟨y, hy, rfl⟩ := List.mem_map.mp hi
    exact hlt y hy
  refine ⟨?_, ?_, ?_⟩
  · rw [List.map_append]
    refine List.Nodup.append hnd (by simp) ?_
    intro a ha
    have : a < fresh := hlt' a (by
      obtain ⟨y, hy, rfl⟩ := List.mem_map.mp ha
      exact hsub y hy)
    simp only [mkAbsenceEntry, List.map_cons, List.map_nil,
      List.mem_singleton]
    omega
  · intro x hx
    rcases List.mem_append.mp hx with hx | hx
    · have : x.id < fresh := hlt' _ (hsub x hx)
      omega
    · rw [List.mem_singleton.mp hx]
      exact Nat.lt_succ_self fresh
  · intro x hx
    rcases List.mem_append.mp hx with hx | hx
    · exact .inl (hsub x hx)
    · rw [List.mem_singleton.mp hx]
      exact .inr (le_refl fresh)

/-- One reconciliation step keeps the id discipline, never allocates below
the incoming counter, and keeps every absence-typed entry untouched in the
table (reconciliation only shrinks or deletes *non-absence* entries). -/
theorem reconcileDay_invariants (cid rid : Nat) (atype : AbsenceRequestType)
    (rnv : Bool) (d : Date) (frac : ℤ) (es : List DailyTimesheetEntry)
    (fresh : Nat) (hids : (es.map (·.id)).Nodup)
    (hlt : ∀ x ∈ es, x.id < fresh) :
    (((reconcileDay cid rid atype rnv d frac es fresh).1.map (·.id)).Nodup) ∧
    (∀ x ∈ (reconcileDay cid rid atype rnv d frac es fresh).1,
      x.id < (reconcileDay cid rid atype rnv d frac es fresh).2.1) ∧
    fresh ≤ (reconcileDay cid rid atype rnv d frac es fresh).2.1 ∧
    (∀ x ∈ (reconcileDay cid rid atype rnv d frac es fresh).1,
      x.id ∈ es.map (·.id) ∨ fresh ≤ x.id) ∧
    (∀ e ∈ es, e.activity_type = .absence →
      e ∈ (reconcileDay cid rid atype rnv d frac es fresh).1) := by
  have hdes_nonabs : ∀ y ∈ es.filter (fun e =>
      decide (e.consultant_id = cid ∧ e.work_date = d ∧
        e.activity_type ≠ .absence)), y.activity_type ≠ .absence := by
    intro y hy
    have := (List.mem_filter.mp hy).2
    simp only [decide_eq_true_eq] at this
    exact this.2.2
  have hdes_mem : ∀ y ∈ es.filter (fun e =>
      decide (e.consultant_id = cid ∧ e.work_date = d ∧
        e.activity_type ≠ .absence)), y ∈ es :=
    fun y hy => (List.mem_filter.mp hy).1
  have h_not_des_id : ∀ e ∈ es, e.activity_type = .absence →
      ¬ e.id ∈ (es.filter (fun e =>
        decide (e.consultant_id = cid ∧ e.work_date = d ∧
          e.activity_type ≠ .absence))).map (·.id) := by
    intro e he habs hin
    obtain ⟨y, hy, hyid⟩ := List.mem_map.mp hin
    have : y = e :=
      List.inj_on_of_nodup_map hids (hdes_mem y hy) he hyid
    exact hdes_nonabs y hy (this ▸ habs)
  have happ_full : ∀ (ids : List Nat) (fh : Option Nat),
      (∀ i ∈ ids, i ∈ (es.filter (fun e =>
        decide (e.consultant_id = cid ∧ e.work_date = d ∧
          e.activity_type ≠ .absence))).map (·.id)) →
      (∀ i, fh = some i → i ∈ (es.filter (fun e =>
        decide (e.consultant_id = cid ∧ e.work_date = d ∧
          e.activity_type ≠ .absence))).map (·.id)) →
      ∀ (amt : ℤ),
      (((applyPlan ids fh es ++
        [mkAbsenceEntry fresh cid d amt atype rid]).map (·.id)).Nodup) ∧
      (∀ x ∈ applyPlan ids fh es ++
        [mkAbsenceEntry fresh cid d amt atype rid], x.id < fresh + 1) ∧
      (∀ x ∈ applyPlan ids fh es ++
        [mkAbsenceEntry fresh cid d amt atype rid],
        x.id ∈ es.map (·.id) ∨ fresh ≤ x.id) ∧
      (∀ e ∈ es, e.activity_type = .absence →
        e ∈ applyPlan ids fh es ++
          [mkAbsenceEntry fresh cid d amt atype rid]) := by
    intro ids fh hsub1 hsub2 amt
    obtain ⟨h1, h2, h3⟩ := append_mk_invariants (applyPlan ids fh es) es
      fresh cid rid d amt atype (fun x hx => applyPlan_id_mem hx)
      (by
        rw [applyPlan_ids]
        exact ((List.filter_sublist _).map _).nodup hids) hlt
    refine ⟨h1, h2, h3, ?_⟩
    intro e he habs
    refine List.mem_append_left _ (applyPlan_mem _ _ _ e he ?_ ?_)
    · intro hin
      exact h_not_des_id e he habs (hsub1 _ hin)
    · intro hfh
      exact h_not_des_id e he habs (hsub2 _ hfh)
  simp only [reconcileDay]
  split
  · dsimp only
    exact ⟨hids, hlt, le_refl _,
      fun x hx => .inl (List.mem_map_of_mem _ hx), fun e he _ => he⟩
  · split
    · dsimp only
      obtain ⟨h1, h2, h3⟩ := append_mk_invariants es es fresh cid rid d frac
        atype (fun x hx => List.mem_map_of_mem _ hx) hids hlt
      exact ⟨h1, h2, Nat.le_succ fresh, h3,
        fun e he _ => List.mem_append_left _ he⟩
    · split
      · dsimp only
        obtain ⟨h1, h2, h3, h4⟩ := happ_full _ none (fun i hi => hi)
          (by intro i hi; cases hi) fullDay
        exact ⟨h1, h2, Nat.le_succ fresh, h3, h4⟩
      · split
        · dsimp only
          obtain ⟨h1, h2, h3, h4⟩ := happ_full _ _ (halfDayPlan_ids _).1
            (halfDayPlan_ids _).2 halfDay
          exact ⟨h1, h2, Nat.le_succ fresh, h3, h4⟩
        · dsimp only
          exact ⟨hids, hlt, le_refl _,
            fun x hx => .inl (List.mem_map_of_mem _ hx), fun e he _ => he⟩

/-- The update reconciliation loop keeps every absence-typed entry of its
input, and every output row's id either comes from the input or is newly
allocated (at or above the incoming counter). -/
theorem reconcileFoldUpdate_invariants (cid rid : Nat)
    (atype : AbsenceRequestType) :
    ∀ (ds : List (Date × ℤ)) (es : List DailyTimesheetEntry) (fresh : Nat),
      (es.map (·.id)).Nodup → (∀ x ∈ es, x.id < fresh) →
      (((reconcileFoldUpdate cid rid atype ds es fresh).1.map
        (·.id)).Nodup) ∧
      (∀ x ∈ (reconcileFoldUpdate cid rid atype ds es fresh).1,
        x.id ∈ es.map (·.id) ∨ fresh ≤ x.id) ∧
      (∀ e ∈ es, e.activity_type = .absence →
        e ∈ (reconcileFoldUpdate cid rid atype ds es fresh).1) := by
  intro ds
  induction ds with
  | nil =>
    intro es fresh h1 _
    exact ⟨h1, fun x hx => .inl (List.mem_map_of_mem _ hx),
      fun e he _ => he⟩
  | cons q rest ih =>
    obtain ⟨d, frac⟩ := q
    intro es fresh h1 h2
    simp only [reconcileFoldUpdate]
    obtain ⟨hnd', hbound', hfresh', hfrom', hkeep'⟩ :=
      reconcileDay_invariants cid rid atype true d frac es fresh h1 h2
    obtain ⟨ih1, ih2, ih3⟩ := ih (reconcileDay cid rid atype true d frac
      es fresh).1 (reconcileDay cid rid atype true d frac es fresh).2.1
      hnd' hbound'
    refine ⟨ih1, ?_, fun e he habs => ih3 _ (hkeep' e he habs) habs⟩
    intro x hx
    rcases ih2 x hx with hin | hge
    · obtain ⟨y, hy, hyid⟩ := List.mem_map.mp hin
      rcases hfrom' y hy with hin2 | hge2
      · left
        rw [← hyid]
        exact hin2
      · right
        rw [← hyid]
        exact hge2
    · exact .inr (le_trans hfresh' hge)

/-- Inversion of a successful `update_absence_request` with a replacement
day list: the committed state is `applyUpdateDays`. -/
theorem updateAbsenceRequest_ok_days (rid cy : Nat) (p : UpdatePayload)
    (s : DBState) (req : AbsenceRequest) (ds : List (Date × ℤ))
    (s' : DBState)
    (hfind : findRequest s rid = some req) (hdays : p.days = some ds)
    (h : updateAbsenceRequest rid p cy s = .ok s') :
    s' = applyUpdateDays s req (p.absence_type.getD req.absence_type)
      (p.status.getD .pending) ds := by
  simp only [updateAbsenceRequest, hfind, hdays] at h
  split at h
  · cases h
  · split at h
    · cases h
    · split at h
      · cases h
      · split at h
        · cases h
        · split at h
          · cases h
          · simp only [updateConflictStage] at h
            split at h
            · cases h
            · split at h
              · cases h
              · simp only [updateApplyStage] at h
                split at h
                · cases h
                · split at h
                  · cases h
                  · cases h
                    rfl

/-- C10: deletion scope of the two entry-removal sites.  (1) When a review
records at least one refused day and is not the refused-to-accepting
transition, review succeeds and afterwards *no* timesheet entry linked to
the request remains — whatever the entries' own statuses were, validated
included.  (2) Update with a replacement day list keeps every *validated*
entry linked to the request, and (3) removes every non-validated linked
entry.  (The update part assumes the code-maintained shape of the store:
request-linked entries are absence-typed, ids unique and below the
allocator.) -/
theorem C10_entry_deletion_scope :
    (∀ (rid : Nat) (rb : String)
        (decisions : List (Nat × AbsenceRequestStatus)) (s : DBState)
        (req : AbsenceRequest),
      findRequest s rid = some req →
      (∀ q ∈ decisions,
        (∃ dy ∈ s.days, dy.id = q.1 ∧ dy.absence_request_id = rid) ∧
        (q.2 = .accepted ∨ q.2 = .refused)) →
      0 < refusedCount decisions →
      ¬ (req.status = .refused ∧
        (deriveStatus (acceptedCount decisions) (refusedCount decisions)
            ((s.days.filter fun dy =>
              decide (dy.absence_request_id = rid)).length) = .accepted ∨
         deriveStatus (acceptedCount decisions) (refusedCount decisions)
            ((s.days.filter fun dy =>
              decide (dy.absence_request_id = rid)).length)
            = .partiallyAccepted)) →
      ∃ s', reviewAbsenceRequest rid rb decisions s = .ok s' ∧
        ∀ e ∈ s'.entries, e.absence_request_id ≠ some rid) ∧
    (∀ (rid cy : Nat) (p : UpdatePayload) (s : DBState)
        (req : AbsenceRequest) (ds : List (Date × ℤ)) (s' : DBState),
      findRequest s rid = some req →
      p.days = some ds →
      updateAbsenceRequest rid p cy s = .ok s' →
      (∀ x ∈ s.entries, x.absence_request_id = some rid →
        x.activity_type = .absence) →
      (s.entries.map (·.id)).Nodup →
      (∀ x ∈ s.entries, x.id < s.nextEntryId) →
      (∀ e ∈ s.entries, e.absence_request_id = some rid →
        e.status = .validated → e ∈ s'.entries) ∧
      (∀ e ∈ s.entries, e.absence_request_id = some rid →
        e.status ≠ .validated → ¬ e ∈ s'.entries)) := by
  constructor
  · intro rid rb decisions s req hfind hwf hrc hnot
    obtain ⟨days', happly, hmap⟩ :=
      applyDecisions_ok rid decisions s.days 0 0 hwf
    have harid : days'.map (·.absence_request_id)
        = s.days.map (·.absence_request_id) := by
      have h2 := congrArg (List.map Prod.snd) hmap
      simpa [List.map_map, Function.comp] using h2
    have htotal : (days'.filter fun dy =>
          decide (dy.absence_request_id = rid)).length
        = (s.days.filter fun dy =>
          decide (dy.absence_request_id = rid)).length := by
      rw [← List.countP_eq_length_filter, ← List.countP_eq_length_filter]
      have h3 := congrArg (List.countP (fun o => decide (o = rid))) harid
      rw [List.countP_map, List.countP_map] at h3
      simpa [Function.comp] using h3
    have hnot' : ¬ (req.status = .refused ∧
        (deriveStatus (acceptedCount decisions) (refusedCount decisions)
            ((days'.filter fun dy =>
              decide (dy.absence_request_id = rid)).length) = .accepted ∨
         deriveStatus (acceptedCount decisions) (refusedCount decisions)
            ((days'.filter fun dy =>
              decide (dy.absence_request_id = rid)).length)
            = .partiallyAccepted)) := by
      rw [htotal]
      exact hnot
    simp only [reviewAbsenceRequest, hfind, happly, Nat.zero_add]
    rw [if_neg hnot', if_pos hrc]
    refine ⟨_, rfl, ?_⟩
    intro e he
    simpa using (List.mem_filter.mp he).2
  · intro rid cy p s req ds s' hfind hdays h habs hids hlt
    have hrid : req.id = rid := findRequest_id s rid req hfind
    have hs' := updateAbsenceRequest_ok_days rid cy p s req ds s' hfind
      hdays h
    subst hs'
    simp only [applyUpdateDays, hrid]
    have hkept_sub : ∀ x ∈ s.entries.filter (fun e =>
        decide (¬ (e.absence_request_id = some rid ∧
          e.status ≠ .validated))), x ∈ s.entries :=
      fun x hx => (List.mem_filter.mp hx).1
    have hkept_nd : ((s.entries.filter (fun e =>
        decide (¬ (e.absence_request_id = some rid ∧
          e.status ≠ .validated)))).map (·.id)).Nodup :=
      ((List.filter_sublist _).map _).nodup hids
    have hkept_lt : ∀ x ∈ s.entries.filter (fun e =>
        decide (¬ (e.absence_request_id = some rid ∧
          e.status ≠ .validated))), x.id < s.nextEntryId :=
      fun x hx => hlt x (hkept_sub x hx)
    obtain ⟨hnd, hfrom, hkeeps⟩ := reconcileFoldUpdate_invariants
      req.consultant_id rid (p.absence_type.getD req.absence_type) ds
      (s.entries.filter (fun e =>
        decide (¬ (e.absence_request_id = some rid ∧
          e.status ≠ .validated)))) s.nextEntryId hkept_nd hkept_lt
    constructor
    · intro e he hlink hval
      have hkept : e ∈ s.entries.filter (fun e =>
          decide (¬ (e.absence_request_id = some rid ∧
            e.status ≠ .validated))) :=
        List.mem_filter.mpr ⟨he, by simp [hlink, hval]⟩
      exact hkeeps e hkept (habs e he hlink)
    · intro e he hlink hval hmem
      have hnotkept : ¬ e ∈ s.entries.filter (fun e =>
          decide (¬ (e.absence_request_id = some rid ∧
            e.status ≠ .validated))) := by
        intro hk
        have := (List.mem_filter.mp hk).2
        simp [hlink, hval] at this
      rcases hfrom e hmem with hin | hge
      · obtain ⟨y, hy, hyid⟩ := List.mem_map.mp hin
        have : y = e := List.inj_on_of_nodup_map hids
          (hkept_sub y hy) he hyid
        exact hnotkept (this ▸ hy)
      · exact absurd (hlt e he) (by omega)

/-- Witness for `C10_entry_deletion_scope` (the review conjunct): a
mixed-decision review of the pending fixture request succeeds and removes
every entry linked to the request, including the validated one. -/
theorem C10_entry_deletion_scope_witness :
    (findRequest c10_state 1 = some ⟨1, 1, .cp, .pending, none, none⟩ ∧
      (∀ q ∈ ([(1, .accepted), (2, .refused)] :
          List (Nat × AbsenceRequestStatus)),
        (∃ dy ∈ c10_state.days, dy.id = q.1 ∧ dy.absence_request_id = 1) ∧
        (q.2 = .accepted ∨ q.2 = .refused)) ∧
      0 < refusedCount [(1, .accepted), (2, .refused)] ∧
      ¬ (AbsenceRequestStatus.pending = .refused ∧
        (deriveStatus (acceptedCount [(1, .accepted), (2, .refused)])
            (refusedCount [(1, .accepted), (2, .refused)])
            ((c10_state.days.filter fun dy =>
              decide (dy.absence_request_id = 1)).length) = .accepted ∨
         deriveStatus (acceptedCount [(1, .accepted), (2, .refused)])
            (refusedCount [(1, .accepted), (2, .refused)])
            ((c10_state.days.filter fun dy =>
              decide (dy.absence_request_id = 1)).length)
            = .partiallyAccepted))) ∧
    (∃ s', reviewAbsenceRequest 1 "hr@company.com"
        [(1, .accepted), (2, .refused)] c10_state = .ok s' ∧
      ∀ e ∈ s'.entries, e.absence_request_id ≠ some 1) :=
  ⟨⟨by decide, by decide, by decide, by decide⟩,
    C10_entry_deletion_scope.1 1 "hr@company.com"
      [(1, .accepted), (2, .refused)] c10_state
      ⟨1, 1, .cp, .pending, none, none⟩ (by decide) (by decide) (by decide)
      (by decide)⟩

/-- C6 (counterexample): the scenario's trigger is wrong — creating the
half-day absence request performs no reconciliation.  In the spec's scenario
state (full-day project entry on 2025-03-10, March 2025 timesheet present),
`create_absence_request` succeeds and the project entry keeps amount 1.0; no
0.5 absence entry appears and the month is untouched, contradicting the
claimed outcome. -/
theorem C6_counterexample :
    (createAbsenceRequest c6_cex_p 2025 c6_cex_state).map (fun s => s.entries)
        = .ok c6_cex_state.entries ∧
    c6_cex_state.entries.map (·.amount) = [fullDay] ∧
    c6_cex_state.entries.all (fun e => decide (e.activity_type ≠ .absence))
        = true := by
  decide

/-- C6 (amended): the half-day reconciliation behaves as described when it is
actually triggered — by `update_absence_request` with a replacement day list
(or a refused-to-accepting review), not by creation — and the new absence
entry is `pending` while the `MonthlyTimesheet` row's own status is not
modified.  (i) Single full-day entry: it is shrunk to 0.5 and a 0.5 absence
entry is inserted; the month's timesheet row keeps its `saved` status.
(ii) Entries 3/5, 1/5, 1/5 summing to a full day: the last is deleted, the
remainder 4/5 still exceeds 0.5, so the first is shrunk to 0.5 and the middle
one is deleted too, before the 0.5 absence entry is inserted. -/
theorem C6_amended_reconciliation :
    (updateAbsenceRequest 1 c6_upd_p 2025 c6_upd_state).map
        (fun s => (s.entries, s.timesheets))
      = .ok
        ([⟨1, 1, c6_mar10, .project, halfDay, .saved, some 4, none, none,
            none, some 1⟩,
          ⟨2, 1, c6_mar10, .absence, halfDay, .pending, none, none, some .cp,
            some 1, none⟩],
          c6_upd_state.timesheets) ∧
    (updateAbsenceRequest 1 c6_multi_p 2025 c6_multi_state).map
        (fun s => s.entries.map (fun e => (e.id, e.activity_type, e.amount)))
      = .ok [(1, .project, halfDay), (4, .absence, halfDay)] := by
  refine ⟨by decide, by decide⟩

end CRA
